import Mathlib

/-!
Verification development for the Honorably chat application.

The backend's request handlers, sanitization pass, rate-limiter
configuration, database layer and client-side encryption helpers are
embedded as executable Lean definitions, translated from the JavaScript
sources (`backend/mainGpt.js`, `backend/publicGpt.js`,
`backend/rateLimiting.js`, `database-backend.js`, `src/encryption.js`).
External services (the OpenAI moderation/completion endpoints, the
Web Crypto AES-GCM primitive) appear as explicit inputs or function
parameters together with their documented contracts; the hosted
database's row-level security and conversation-quota trigger, whose SQL
(`database_schema.sql`) is referenced by the setup instructions but not
part of the source tree, are modelled from the specification and marked
as such.
-/

namespace Honorably

/-! ## JavaScript string helpers

Characters the JS `String.prototype.trim` removes (the WhiteSpace and
LineTerminator sets). -/

def isJsWhitespace (c : Char) : Bool :=
  c.toNat = 9 ∨ c.toNat = 10 ∨ c.toNat = 11 ∨ c.toNat = 12 ∨ c.toNat = 13 ∨
  c.toNat = 32 ∨ c.toNat = 160 ∨ c.toNat = 0x1680 ∨
  (0x2000 ≤ c.toNat ∧ c.toNat ≤ 0x200A) ∨
  c.toNat = 0x2028 ∨ c.toNat = 0x2029 ∨ c.toNat = 0x202F ∨
  c.toNat = 0x205F ∨ c.toNat = 0x3000 ∨ c.toNat = 0xFEFF

/-- JS `s.trim()` on a list of characters: strip `isJsWhitespace`
characters from both ends. -/
def jsTrim (l : List Char) : List Char :=
  ((l.dropWhile isJsWhitespace).reverse.dropWhile isJsWhitespace).reverse

/-! ## Sanitization (mainGpt.js lines 42-45)

`message.replace(/<script\b[^<]*(?:(?!<\/script>)<[^<]*)*<\/script>/gi, '')
        .replace(/<[^>]*>/g, '')
        .trim()`

Both regex replaces are global left-to-right scans.  The second pattern
matches a `<`, a maximal run of non-`>` characters and a `>`; a match
attempt at a `<` therefore succeeds exactly when some `>` occurs later
in the string, and the match consumes through the first such `>`.  The
first pattern matches case-insensitively from `<script` followed by a
word boundary through the first subsequent `</script>` (the tempered
interior `[^<]*(?:(?!<\/script>)<[^<]*)*` accepts every character run
that contains no `</script>`). -/

/-- Split a character list at its first `>`: returns the suffix after
that `>`, or `none` when no `>` occurs.  This is what one match of
`/<[^>]*>/` consumes after the opening `<`. -/
def splitAtGt : List Char → Option (List Char)
  | [] => none
  | c :: cs => if c = '>' then some cs else splitAtGt cs

theorem splitAtGt_length : ∀ {l r : List Char}, splitAtGt l = some r → r.length < l.length := by
  intro l
  induction l with
  | nil => intro r h; simp [splitAtGt] at h
  | cons c cs ih =>
    intro r h
    by_cases hc : c = '>'
    · simp [splitAtGt, hc] at h
      simp [← h]
    · simp [splitAtGt, hc] at h
      exact Nat.lt_succ_of_lt (ih h)

/-- Global replace of `/<[^>]*>/g` by the empty string: scan left to
right; at a `<` with a later `>`, drop through the first such `>` and
continue after it; otherwise keep the character. -/
def stripTags : List Char → List Char
  | [] => []
  | c :: cs =>
    if c = '<' then
      match h : splitAtGt cs with
      | some rest => stripTags rest
      | none => c :: stripTags cs
    else c :: stripTags cs
termination_by l => l.length
decreasing_by
  · exact Nat.lt_succ_of_lt (splitAtGt_length h)
  · exact Nat.lt_succ_self _
  · exact Nat.lt_succ_self _

/-- Case-insensitive prefix test: does `l` start with the (lowercase)
pattern `pat`, comparing lowercased characters (regex `i` flag)? -/
def ciStartsWith : List Char → List Char → Bool
  | [], _ => true
  | _ :: _, [] => false
  | p :: ps, c :: cs => c.toLower = p && ciStartsWith ps cs

/-- JS regex word character (`\w` / the `\b` boundary classes):
`[A-Za-z0-9_]`. -/
def isJsWordChar (c : Char) : Bool :=
  ('a' ≤ c ∧ c ≤ 'z') ∨ ('A' ≤ c ∧ c ≤ 'Z') ∨ ('0' ≤ c ∧ c ≤ '9') ∨ c = '_'

/-- The `\b` after `<script` holds when the next character is not a word
character (or the string ends). -/
def boundaryOk : List Char → Bool
  | [] => true
  | c :: _ => !isJsWordChar c

/-- Find the first case-insensitive occurrence of `</script>`; returns
the suffix after it, or `none`. -/
def findScriptClose : List Char → Option (List Char)
  | [] => none
  | c :: cs =>
    if ciStartsWith "</script>".toList (c :: cs) then some (cs.drop 8)
    else findScriptClose cs

theorem findScriptClose_length :
    ∀ {l r : List Char}, findScriptClose l = some r → r.length < l.length := by
  intro l
  induction l with
  | nil => intro r h; simp [findScriptClose] at h
  | cons c cs ih =>
    intro r h
    rw [findScriptClose] at h
    split at h
    · injection h with h'
      subst h'
      simp only [List.length_drop, List.length_cons]
      omega
    · exact Nat.lt_succ_of_lt (ih h)

/-- Global replace of the script-element regex by the empty string: at a
case-insensitive `<script` followed by a word boundary, a match runs
through the first later `</script>`; when one exists the whole region is
dropped and the scan resumes after it, otherwise (and at every other
character) the character is kept and the scan advances by one. -/
def stripScript : List Char → List Char
  | [] => []
  | c :: cs =>
    if ciStartsWith "<script".toList (c :: cs) && boundaryOk (cs.drop 6) then
      match h : findScriptClose (cs.drop 6) with
      | some rest => stripScript rest
      | none => c :: stripScript cs
    else c :: stripScript cs
termination_by l => l.length
decreasing_by
  · exact Nat.lt_succ_of_lt
      (Nat.lt_of_lt_of_le (findScriptClose_length h) ((cs.length_drop 6) ▸ Nat.sub_le _ _))
  · exact Nat.lt_succ_self _
  · exact Nat.lt_succ_self _

/-- The complete sanitization pass of `handleMainGpt` (script regex,
then tag regex, then `trim`). -/
def sanitizeChars (l : List Char) : List Char :=
  jsTrim (stripTags (stripScript l))

/-- Sanitization on strings (`sanitizedMessage` in `handleMainGpt`). -/
def sanitizeMessage (s : String) : String :=
  ⟨sanitizeChars s.toList⟩

/-- `hasTagPair l` holds when `l` has a substring that starts with `<`
and ends with `>`, i.e. some `<` occurs strictly before some `>`. -/
def hasTagPair : List Char → Bool
  | [] => false
  | c :: cs => if c = '<' then cs.contains '>' else hasTagPair cs

/-! ## Chat request handlers (backend/mainGpt.js, backend/publicGpt.js)

Both handlers are pure functions of the parsed request body and of the
outcomes of the two external OpenAI calls (moderation and chat
completion), which the JavaScript performs with `await` and which can
either return a result or throw an error carrying an optional `code`.
The model records which HTTP status and JSON body are sent and, when
the completion endpoint is reached, the message that is forwarded to
it. -/

/-- An error thrown by the OpenAI client (`error.code`, `error.message`). -/
structure ApiError where
  code : Option String
  message : String
deriving DecidableEq, Repr

/-- One moderation result (`moderation.results[0]`): the top-level
`flagged` flag and the `categories` object as key/value pairs. -/
structure ModResult where
  flagged : Bool
  categories : List (String × Bool)
deriving DecidableEq, Repr

/-- `Object.keys(categories).filter(key => categories[key])`. -/
def flaggedCategories (m : ModResult) : List String :=
  (m.categories.filter (fun kv => kv.2)).map (fun kv => kv.1)

/-- A chat completion (`completion.choices[0].message.content`,
`completion.usage`, `completion.model`). -/
structure Completion where
  content : String
  totalTokens : Nat
  model : String
deriving DecidableEq, Repr

/-- The parsed JSON request body.  A missing field is `none`;
`maxTokens` defaults to 150 and `temperature` to 0.7 in the handlers.
(Payloads whose fields are of other JSON types are outside the model.) -/
structure ChatRequest where
  message : Option String
  maxTokens : Option ℚ
  temperature : Option ℚ
deriving DecidableEq, Repr

/-- The JSON bodies the two handlers can produce, one constructor per
object shape appearing in the source. -/
inductive ResBody
  | errMsg (error : String)
  | errFlagged (error : String) (flagged : Bool)
  | errDetails (error : String) (details : String)
  | mainSuccess (success : Bool) (response : String) (totalTokens : Nat) (model : String)
  | publicSuccess (response : String) (totalTokens : Nat) (model : String)
deriving DecidableEq, Repr

/-- What a handler sends: HTTP status, JSON body, and the user message
forwarded to the completion endpoint (`none` when that endpoint was
never called). -/
structure HandlerResult where
  status : Nat
  body : ResBody
  forwarded : Option String
deriving DecidableEq, Repr

/-- Whether the completion endpoint was called for the request. -/
def HandlerResult.completionCalled (r : HandlerResult) : Bool :=
  r.forwarded.isSome

/-- mainGpt.js catch block: completion-provider errors mapped to fixed
statuses (402 quota, 401 bad key, 500 generic with details). -/
def mainGptErrorResponse (e : ApiError) (fwd : Option String) : HandlerResult :=
  if e.code = some "insufficient_quota" then
    ⟨402, .errMsg "Insufficient OpenAI quota", fwd⟩
  else if e.code = some "invalid_api_key" then
    ⟨401, .errMsg "Invalid OpenAI API key", fwd⟩
  else
    ⟨500, .errDetails "Internal server error" e.message, fwd⟩

/-- mainGpt.js steps 3-7: call the completion endpoint with the
sanitized message and package the response or the thrown error. -/
def mainGptComplete (msg : String) (o : Except ApiError Completion) : HandlerResult :=
  match o with
  | .ok c => ⟨200, .mainSuccess true c.content c.totalTokens c.model, some msg⟩
  | .error e => mainGptErrorResponse e (some msg)

/-- `handleMainGpt` (backend/mainGpt.js): validation, sanitization,
moderation (failures swallowed), completion, error mapping. -/
def handleMainGpt (req : ChatRequest) (moderationOutcome : Except ApiError ModResult)
    (completionOutcome : Except ApiError Completion) : HandlerResult :=
  let maxTokens := req.maxTokens.getD 150
  let temperature := req.temperature.getD (7/10)
  match req.message with
  | none => ⟨400, .errMsg "Message is required", none⟩
  | some message =>
    if message = "" then
      ⟨400, .errMsg "Message is required", none⟩
    else if message.length > 4000 then
      ⟨400, .errMsg "Message too long. Maximum 4000 characters allowed.", none⟩
    else if maxTokens < 1 ∨ maxTokens > 1000 then
      ⟨400, .errMsg "maxTokens must be between 1 and 1000", none⟩
    else if temperature < 0 ∨ temperature > 1 then
      ⟨400, .errMsg "temperature must be between 0 and 1", none⟩
    else
      let sanitizedMessage := sanitizeMessage message
      match moderationOutcome with
      | .ok m =>
        if m.flagged then
          ⟨400, .errFlagged "Your message contains content that violates our usage policies. Please rephrase your question in a respectful and appropriate manner." true, none⟩
        else
          mainGptComplete sanitizedMessage completionOutcome
      | .error _ => mainGptComplete sanitizedMessage completionOutcome

/-- publicGpt.js catch block: `invalid_api_key` and
`insufficient_quota` both map to 500, `rate_limit_exceeded` to 429,
anything else to a generic 500. -/
def publicGptErrorResponse (e : ApiError) (fwd : Option String) : HandlerResult :=
  if e.code = some "invalid_api_key" then
    ⟨500, .errMsg "Invalid OpenAI API key", fwd⟩
  else if e.code = some "insufficient_quota" then
    ⟨500, .errMsg "OpenAI quota exceeded", fwd⟩
  else if e.code = some "rate_limit_exceeded" then
    ⟨429, .errMsg "OpenAI rate limit exceeded", fwd⟩
  else
    ⟨500, .errMsg "An error occurred while processing your request", fwd⟩

/-- `handlePublicGpt` (backend/publicGpt.js): no length or temperature
validation and no sanitization; the moderation call is not wrapped in
its own try/catch, so a moderation error falls through to the outer
catch; a message is blocked when any moderation category is true. -/
def handlePublicGpt (req : ChatRequest) (moderationOutcome : Except ApiError ModResult)
    (completionOutcome : Except ApiError Completion) : HandlerResult :=
  let maxTokens := req.maxTokens.getD 150
  match req.message with
  | none => ⟨400, .errMsg "Message is required and must be a string", none⟩
  | some message =>
    if message = "" then
      ⟨400, .errMsg "Message is required and must be a string", none⟩
    else if jsTrim message.toList = [] then
      ⟨400, .errMsg "Message cannot be empty", none⟩
    else if maxTokens < 1 ∨ maxTokens > 1000 then
      ⟨400, .errMsg "maxTokens must be between 1 and 1000", none⟩
    else
      match moderationOutcome with
      | .error e => publicGptErrorResponse e none
      | .ok m =>
        if flaggedCategories m ≠ [] then
          ⟨400, .errFlagged ("Content violates our policy: " ++
            String.intercalate ", " (flaggedCategories m)) true, none⟩
        else
          match completionOutcome with
          | .ok c => ⟨200, .publicSuccess c.content c.totalTokens c.model, some message⟩
          | .error e => publicGptErrorResponse e (some message)

/-! ## Database layer (database-backend.js)

The two tables of the hosted store are embedded as lists of rows, and
each function of `database-backend.js` becomes a function from the
store state to an `Except` carrying either the failure message the
JavaScript throws or the updated state and returned data.  All
functions run their queries through a client authenticated with the
caller's token; the route layer derives both the `userId` argument and
the token from the same bearer token, so the calling identity is the
single `uid` argument below. -/

structure Conversation where
  id : Nat
  user_id : String
  title : String
deriving DecidableEq, Repr

structure Message where
  id : Nat
  conversation_id : Nat
  role : String
  content : String
deriving DecidableEq, Repr

structure Store where
  conversations : List Conversation
  messages : List Message
  nextConvId : Nat
  nextMsgId : Nat
deriving DecidableEq, Repr

/-- Modelled from the spec: row-level security of the external store
(`database_schema.sql` is referenced by the setup instructions but not
in the tree).  "Two tables (conversations, messages) with per-user row
isolation": a conversation row is visible to the calling identity only
when it owns it. -/
def convVisible (uid : String) (c : Conversation) : Bool :=
  c.user_id == uid

/-- Modelled from the spec: row-level security for messages — "a
message belongs to exactly one conversation, transitively to one
user", so a message row is visible when its parent conversation is
owned by the caller. -/
def msgVisible (s : Store) (uid : String) (m : Message) : Bool :=
  s.conversations.any (fun c => c.id == m.conversation_id && c.user_id == uid)

/-- Conversations a user owns (for the quota trigger). -/
def userConversationCount (s : Store) (uid : String) : Nat :=
  (s.conversations.filter (fun c => c.user_id == uid)).length

/-- `createConversation` (database-backend.js lines 18-48): inserts
`{title, user_id}`.  Modelled from the spec: the insert fires the
store's quota trigger — "a user may own at most 3 conversations
(enforced server-side by a database trigger)" — whose error the
JavaScript surfaces by throwing `Failed to create conversation`. -/
def createConversation (s : Store) (uid title : String) :
    Except String (Store × Conversation) :=
  if userConversationCount s uid ≥ 3 then
    .error "Failed to create conversation"
  else
    let c : Conversation := ⟨s.nextConvId, uid, title⟩
    .ok ({ s with conversations := s.conversations ++ [c],
                  nextConvId := s.nextConvId + 1 }, c)

/-- `getUserConversations` (lines 51-78): select rows with
`user_id = uid` (row-level security makes the same restriction). -/
def getUserConversations (s : Store) (uid : String) : Except String (List Conversation) :=
  .ok (s.conversations.filter (fun c => c.user_id == uid && convVisible uid c))

/-- `updateConversationTitle` (lines 81-108): update rows matching
`id = conversationId` and `user_id = userId`; the store reports no
error when zero rows match, so the function returns `{success: true}`
even then. -/
def updateConversationTitle (s : Store) (conversationId : Nat) (uid newTitle : String) :
    Except String Store :=
  .ok { s with conversations :=
    s.conversations.map (fun c =>
      if c.id == conversationId && c.user_id == uid && convVisible uid c then
        { c with title := newTitle }
      else c) }

/-- First step of `deleteConversation` (lines 122-131): delete all
messages with `conversation_id = conversationId`.  The query itself
has no user filter; only row-level security restricts it to the
caller's own rows. -/
def deleteMessagesStep (s : Store) (conversationId : Nat) (uid : String) : Store :=
  { s with messages :=
      s.messages.filter (fun m =>
        !(m.conversation_id == conversationId && msgVisible s uid m)) }

/-- Second step of `deleteConversation` (lines 133-143): delete the
conversation row matching `id` and `user_id`. -/
def deleteConversationStep (s : Store) (conversationId : Nat) (uid : String) : Store :=
  { s with conversations :=
      s.conversations.filter (fun c =>
        !(c.id == conversationId && c.user_id == uid && convVisible uid c)) }

/-- `deleteConversation` (lines 111-150): messages first, then the
conversation row; the store reports no error when zero rows match. -/
def deleteConversation (s : Store) (conversationId : Nat) (uid : String) :
    Except String Store :=
  .ok (deleteConversationStep (deleteMessagesStep s conversationId uid) conversationId uid)

/-- The ownership pre-check shared by the message operations (lines
166-179 and 212-225): select `user_id` of the conversation with
`.single()` — under row-level security only a conversation the caller
owns is found — then compare it with the caller. -/
def findOwnedConversation (s : Store) (conversationId : Nat) (uid : String) :
    Except String Conversation :=
  match s.conversations.find? (fun c => c.id == conversationId && convVisible uid c) with
  | none => .error "Conversation not found"
  | some c =>
    if c.user_id ≠ uid then .error "Unauthorized access to conversation"
    else .ok c

/-- `getConversationMessages` (lines 155-198). -/
def getConversationMessages (s : Store) (conversationId : Nat) (uid : String) :
    Except String (List Message) :=
  match findOwnedConversation s conversationId uid with
  | .error e => .error e
  | .ok _ =>
    .ok (s.messages.filter (fun m =>
      m.conversation_id == conversationId && msgVisible s uid m))

/-- `addMessage` (lines 201-248). -/
def addMessage (s : Store) (conversationId : Nat) (uid role content : String) :
    Except String (Store × Message) :=
  match findOwnedConversation s conversationId uid with
  | .error e => .error e
  | .ok _ =>
    let m : Message := ⟨s.nextMsgId, conversationId, role, content⟩
    .ok ({ s with messages := s.messages ++ [m], nextMsgId := s.nextMsgId + 1 }, m)

/-- A sequence of `createConversation` calls (the JavaScript retains
the old state when a call throws). -/
def applyCreates (s : Store) : List (String × String) → Store
  | [] => s
  | (uid, title) :: rest =>
    match createConversation s uid title with
    | .ok (s', _) => applyCreates s' rest
    | .error _ => applyCreates s rest

/-! ## UTF-8 encoding (TextEncoder / Node string hashing)

Byte sequences are `List Nat` with every element `< 256`. -/

/-- UTF-8 encoding of one Unicode scalar value. -/
def utf8EncodeChar (c : Char) : List Nat :=
  if c.toNat < 0x80 then [c.toNat]
  else if c.toNat < 0x800 then [0xC0 + c.toNat / 64, 0x80 + c.toNat % 64]
  else if c.toNat < 0x10000 then
    [0xE0 + c.toNat / 4096, 0x80 + c.toNat / 64 % 64, 0x80 + c.toNat % 64]
  else
    [0xF0 + c.toNat / 0x40000, 0x80 + c.toNat / 4096 % 64, 0x80 + c.toNat / 64 % 64,
      0x80 + c.toNat % 64]

/-- UTF-8 encoding of a string (`new TextEncoder().encode(s)`, and the
encoding Node's `hash.update(string)` applies). -/
def utf8Encode (s : String) : List Nat :=
  s.toList.flatMap utf8EncodeChar

/-- One step of the strict UTF-8 decoder: the scalar value encoded by
the first byte `b` and following bytes `bs`, with the remaining bytes,
or `none` on a malformed head (overlong forms, surrogates and
out-of-range values rejected). -/
def utf8Head (b : Nat) (bs : List Nat) : Option (Nat × List Nat) :=
  if b < 0x80 then some (b, bs)
  else if 0xC0 ≤ b ∧ b < 0xE0 then
    match bs with
    | b2 :: rest =>
      if 0x80 ≤ b2 ∧ b2 < 0xC0 then
        if 0x80 ≤ (b - 0xC0) * 64 + (b2 - 0x80) then
          some ((b - 0xC0) * 64 + (b2 - 0x80), rest)
        else none
      else none
    | [] => none
  else if 0xE0 ≤ b ∧ b < 0xF0 then
    match bs with
    | b2 :: b3 :: rest =>
      if (0x80 ≤ b2 ∧ b2 < 0xC0) ∧ (0x80 ≤ b3 ∧ b3 < 0xC0) then
        if 0x800 ≤ (b - 0xE0) * 4096 + (b2 - 0x80) * 64 + (b3 - 0x80) ∧
            ¬(0xD800 ≤ (b - 0xE0) * 4096 + (b2 - 0x80) * 64 + (b3 - 0x80) ∧
              (b - 0xE0) * 4096 + (b2 - 0x80) * 64 + (b3 - 0x80) < 0xE000) then
          some ((b - 0xE0) * 4096 + (b2 - 0x80) * 64 + (b3 - 0x80), rest)
        else none
      else none
    | _ => none
  else if 0xF0 ≤ b ∧ b < 0xF8 then
    match bs with
    | b2 :: b3 :: b4 :: rest =>
      if (0x80 ≤ b2 ∧ b2 < 0xC0) ∧ (0x80 ≤ b3 ∧ b3 < 0xC0) ∧ (0x80 ≤ b4 ∧ b4 < 0xC0) then
        if 0x10000 ≤ (b - 0xF0) * 0x40000 + (b2 - 0x80) * 4096 +
            (b3 - 0x80) * 64 + (b4 - 0x80) ∧
            (b - 0xF0) * 0x40000 + (b2 - 0x80) * 4096 + (b3 - 0x80) * 64 + (b4 - 0x80) <
              0x110000 then
          some ((b - 0xF0) * 0x40000 + (b2 - 0x80) * 4096 + (b3 - 0x80) * 64 + (b4 - 0x80),
            rest)
        else none
      else none
    | _ => none
  else none

set_option maxRecDepth 8192 in
theorem utf8Head_length :
    ∀ {b : Nat} {bs : List Nat} {n : Nat} {rest : List Nat},
      utf8Head b bs = some (n, rest) → rest.length < bs.length + 1 := by
  intro b bs n rest h
  unfold utf8Head at h
  split_ifs at h <;>
    first
      | (injection h with h'
         cases h'
         simp)
      | (split at h <;>
          first
            | (split_ifs at h <;>
                first
                  | (injection h with h'
                     cases h'
                     simp_arith)
                  | simp at h)
            | simp at h)
      | simp at h

/-- Strict UTF-8 decoder (`new TextDecoder().decode`), covering the
valid sequences; malformed input yields `none` (the browser decoder
would substitute U+FFFD, a case no theorem below reaches). -/
def utf8Decode : List Nat → Option (List Char)
  | [] => some []
  | b :: bs =>
    match h : utf8Head b bs with
    | some (n, rest) => (utf8Decode rest).map (fun cs => Char.ofNat n :: cs)
    | none => none
termination_by l => l.length
decreasing_by simpa using utf8Head_length h

/-! ## SHA-256 (Node `crypto.createHash('sha256')`, Web Crypto digest)

Words are `Nat` reduced mod `2^32`. -/

def w32 (n : Nat) : Nat := n % 2 ^ 32

def rotr32 (n x : Nat) : Nat :=
  w32 ((x >>> n) ||| (x <<< (32 - n)))

def shaCh (x y z : Nat) : Nat := (x &&& y) ^^^ ((x ^^^ 0xFFFFFFFF) &&& z)

def shaMaj (x y z : Nat) : Nat := (x &&& y) ^^^ (x &&& z) ^^^ (y &&& z)

def bigSigma0 (x : Nat) : Nat := rotr32 2 x ^^^ rotr32 13 x ^^^ rotr32 22 x

def bigSigma1 (x : Nat) : Nat := rotr32 6 x ^^^ rotr32 11 x ^^^ rotr32 25 x

def smallSigma0 (x : Nat) : Nat := rotr32 7 x ^^^ rotr32 18 x ^^^ (x >>> 3)

def smallSigma1 (x : Nat) : Nat := rotr32 17 x ^^^ rotr32 19 x ^^^ (x >>> 10)

/-- The 64 round constants. -/
def shaK : List Nat :=
  [1116352408, 1899447441, 3049323471, 3921009573, 961987163, 1508970993,
    2453635748, 2870763221, 3624381080, 310598401, 607225278, 1426881987,
    1925078388, 2162078206, 2614888103, 3248222580, 3835390401, 4022224774,
    264347078, 604807628, 770255983, 1249150122, 1555081692, 1996064986,
    2554220882, 2821834349, 2952996808, 3210313671, 3336571891, 3584528711,
    113926993, 338241895, 666307205, 773529912, 1294757372, 1396182291,
    1695183700, 1986661051, 2177026350, 2456956037, 2730485921, 2820302411,
    3259730800, 3345764771, 3516065817, 3600352804, 4094571909, 275423344,
    430227734, 506948616, 659060556, 883997877, 958139571, 1322822218,
    1537002063, 1747873779, 1955562222, 2024104815, 2227730452, 2361852424,
    2428436474, 2756734187, 3204031479, 3329325298]

/-- Initial hash value. -/
def shaH0 : List Nat :=
  [1779033703, 3144134277, 1013904242, 2773480762, 1359893119, 2600822924,
    528734635, 1541459225]

/-- Extend the 16-word block to the 64-word schedule; the list is kept
most-recent-first while extending. -/
def scheduleAux : Nat → List Nat → List Nat
  | 0, ws => ws
  | n + 1, ws =>
    scheduleAux n
      (w32 (smallSigma1 (ws.getD 1 0) + ws.getD 6 0 + smallSigma0 (ws.getD 14 0) + ws.getD 15 0)
        :: ws)

/-- One compression round on the state `[a,b,c,d,e,f,g,h]`. -/
def shaRound (st : List Nat) (kw : Nat × Nat) : List Nat :=
  match st with
  | [a, b, c, d, e, f, g, h] =>
    let t1 := w32 (h + bigSigma1 e + shaCh e f g + kw.1 + kw.2)
    let t2 := w32 (bigSigma0 a + shaMaj a b c)
    [w32 (t1 + t2), a, b, c, w32 (d + t1), e, f, g]
  | _ => st

/-- Compress one 16-word block into the running hash. -/
def shaCompress (h : List Nat) (block : List Nat) : List Nat :=
  let ws := (scheduleAux 48 block.reverse).reverse
  let st := (shaK.zip ws).foldl shaRound h
  (h.zip st).map (fun p => w32 (p.1 + p.2))

/-- Big-endian bytes of a 64-bit length. -/
def be64 (n : Nat) : List Nat :=
  [n / 2 ^ 56 % 256, n / 2 ^ 48 % 256, n / 2 ^ 40 % 256, n / 2 ^ 32 % 256,
   n / 2 ^ 24 % 256, n / 2 ^ 16 % 256, n / 2 ^ 8 % 256, n % 256]

/-- Big-endian bytes of a 32-bit word. -/
def be32 (n : Nat) : List Nat :=
  [n / 2 ^ 24 % 256, n / 2 ^ 16 % 256, n / 2 ^ 8 % 256, n % 256]

/-- SHA-256 padding: `0x80`, zeros to 56 mod 64, 64-bit bit length. -/
def shaPad (msg : List Nat) : List Nat :=
  msg ++ 0x80 :: List.replicate ((119 - msg.length % 64) % 64) 0 ++ be64 (msg.length * 8)

/-- Pack bytes into big-endian 32-bit words. -/
def bytesToWords : List Nat → List Nat
  | b0 :: b1 :: b2 :: b3 :: rest =>
    (((b0 * 256 + b1) * 256 + b2) * 256 + b3) :: bytesToWords rest
  | _ => []

/-- Split a word list into 16-word blocks (a padded message is always
a whole number of blocks). -/
def toBlocks : List Nat → List (List Nat)
  | w0 :: w1 :: w2 :: w3 :: w4 :: w5 :: w6 :: w7 ::
    w8 :: w9 :: w10 :: w11 :: w12 :: w13 :: w14 :: w15 :: rest =>
    [w0, w1, w2, w3, w4, w5, w6, w7, w8, w9, w10, w11, w12, w13, w14, w15] :: toBlocks rest
  | _ => []

/-- SHA-256 digest (32 bytes) of a byte sequence. -/
def sha256Bytes (msg : List Nat) : List Nat :=
  (((toBlocks (bytesToWords (shaPad msg))).foldl shaCompress shaH0).map be32).flatten

def hexDigit (n : Nat) : Char :=
  if n < 10 then Char.ofNat (48 + n) else Char.ofNat (87 + n)

/-- Lowercase hex rendering (`.digest('hex')`). -/
def bytesToHex (bs : List Nat) : String :=
  String.mk (bs.flatMap (fun b => [hexDigit (b / 16), hexDigit (b % 16)]))

/-- `crypto.createHash('sha256').update(s).digest('hex')`. -/
def sha256Hex (s : String) : String :=
  bytesToHex (sha256Bytes (utf8Encode s))

/-! ## Rate limiting (backend/rateLimiting.js)

The two `express-rate-limit` policies.  The middleware itself is an
external dependency; its documented fixed-window behaviour — one
counter per key, incremented on every non-skipped hit, blocking once
the counter exceeds `max` — is embedded below so the configured caps
can be stated. -/

structure LimitRequest where
  sessionID : Option String
  ip : String
  path : String
deriving DecidableEq, Repr

structure RateLimitPolicy where
  windowMs : Nat
  maxReqs : Nat
  keyGen : LimitRequest → String
  skip : LimitRequest → Bool

/-- `process.env.RATE_LIMIT_SALT || 'default-salt'`. -/
def rateLimitSalt (env : Option String) : String :=
  env.getD "default-salt"

/-- The authenticated limiter's key generator: the session id when one
exists, otherwise `sha256(ip + date + salt)` in hex, where `date` is
`new Date().toDateString()` for the current day. -/
def authLimiterKey (salt date : String) (r : LimitRequest) : String :=
  match r.sessionID with
  | some sid => sid
  | none => sha256Hex (r.ip ++ date ++ salt)

/-- The `limiter` policy (rateLimiting.js lines 7-32): 15-minute
window, 50 requests, privacy key, `/health` skipped. -/
def limiter (salt date : String) : RateLimitPolicy where
  windowMs := 15 * 60 * 1000
  maxReqs := 50
  keyGen := authLimiterKey salt date
  skip := fun r => r.path == "/health"

/-- The `publicRateLimit` policy (lines 35-45): 15-minute window, 10
requests per client address. -/
def publicRateLimit : RateLimitPolicy where
  windowMs := 15 * 60 * 1000
  maxReqs := 10
  keyGen := fun r => r.ip
  skip := fun _ => false

def bumpCount (counts : String → Nat) (k : String) (n : Nat) : String → Nat :=
  fun k' => if k' = k then n else counts k'

/-- Requests the middleware lets through within one window, among the
hits of key `k`, starting from per-key counters `counts`: each
non-skipped request increments its key's counter and passes only while
the counter stays within `maxReqs`. -/
def allowedHits (p : RateLimitPolicy) (counts : String → Nat) :
    List LimitRequest → String → Nat
  | [], _ => 0
  | r :: rs, k =>
    if p.skip r then allowedHits p counts rs k
    else
      let kr := p.keyGen r
      let c := counts kr + 1
      (if kr = k ∧ c ≤ p.maxReqs then 1 else 0) + allowedHits p (bumpCount counts kr c) rs k

/-! ## Base64 (`btoa` / `atob`) -/

def base64Alphabet : List Char :=
  "ABCDEFGHIJKLMNOPQRSTUVWXYZabcdefghijklmnopqrstuvwxyz0123456789+/".toList

def b64Char (n : Nat) : Char :=
  base64Alphabet.getD n 'A'

def b64IndexAux : List Char → Char → Nat → Option Nat
  | [], _, _ => none
  | d :: ds, c, i => if c = d then some i else b64IndexAux ds c (i + 1)

def b64Index (c : Char) : Option Nat :=
  b64IndexAux base64Alphabet c 0

/-- `btoa` on a byte sequence: 3 bytes become 4 sextet characters, the
final group padded with `=`. -/
def b64Encode : List Nat → List Char
  | [] => []
  | [b1] => [b64Char (b1 / 4), b64Char (b1 % 4 * 16), '=', '=']
  | [b1, b2] => [b64Char (b1 / 4), b64Char (b1 % 4 * 16 + b2 / 16), b64Char (b2 % 16 * 4), '=']
  | b1 :: b2 :: b3 :: rest =>
    b64Char (b1 / 4) :: b64Char (b1 % 4 * 16 + b2 / 16) ::
    b64Char (b2 % 16 * 4 + b3 / 64) :: b64Char (b3 % 64) :: b64Encode rest

/-- Decode one 4-character group into 1-3 bytes. -/
def b64DecodeGroup (c1 c2 c3 c4 : Char) : Option (List Nat) :=
  match b64Index c1, b64Index c2 with
  | some n1, some n2 =>
    if c3 = '=' then
      if c4 = '=' then some [n1 * 4 + n2 / 16] else none
    else
      match b64Index c3 with
      | some n3 =>
        if c4 = '=' then some [n1 * 4 + n2 / 16, n2 % 16 * 16 + n3 / 4]
        else
          match b64Index c4 with
          | some n4 => some [n1 * 4 + n2 / 16, n2 % 16 * 16 + n3 / 4, n3 % 4 * 64 + n4]
          | none => none
      | none => none
  | _, _ => none

/-- `atob` on canonical padded base64 text, as a byte sequence; `none`
models the `InvalidCharacterError` throw.  (The browser's forgiving
decoder also accepts a final unpadded group and only allows `=` at the
end; those inputs never arise below, where `atob` is only applied to
`btoa` output.) -/
def b64Decode : List Char → Option (List Nat)
  | [] => some []
  | c1 :: c2 :: c3 :: c4 :: rest =>
    match b64DecodeGroup c1 c2 c3 c4, b64Decode rest with
    | some g, some bs => some (g ++ bs)
    | _, _ => none
  | _ => none

/-! ## Client-side encryption (src/encryption.js)

The Web Crypto calls are external: SHA-256 digests reuse `sha256Bytes`,
the PBKDF2 key derivation is implemented via HMAC-SHA256, and the
AES-GCM cipher itself enters the theorems as a function parameter with
its contract (deterministic given key/IV/plaintext, inverse decryption,
16-byte tag).  The 12-byte IV from `crypto.getRandomValues` is an
explicit argument. -/

def xorBytes (xs ys : List Nat) : List Nat :=
  (xs.zip ys).map (fun p => p.1 ^^^ p.2)

/-- HMAC-SHA256 (RFC 2104), block size 64. -/
def hmacSha256 (key msg : List Nat) : List Nat :=
  let k0 := if key.length > 64 then sha256Bytes key else key
  let k := k0 ++ List.replicate (64 - k0.length) 0
  let ipad := k.map (fun b => b ^^^ 0x36)
  let opad := k.map (fun b => b ^^^ 0x5C)
  sha256Bytes (opad ++ sha256Bytes (ipad ++ msg))

def pbkdf2Iterate (pw : List Nat) : Nat → List Nat → List Nat → List Nat
  | 0, _, t => t
  | n + 1, u, t =>
    let u' := hmacSha256 pw u
    pbkdf2Iterate pw n u' (xorBytes t u')

/-- One PBKDF2-HMAC-SHA256 output block (RFC 8018); a 256-bit AES key
is exactly the first block. -/
def pbkdf2Sha256Block (pw salt : List Nat) (iterations blockIdx : Nat) : List Nat :=
  let u1 := hmacSha256 pw (salt ++ be32 blockIdx)
  pbkdf2Iterate pw (iterations - 1) u1 u1

/-- `generateUserSalt` (encryption.js lines 5-10): first 16 bytes of
SHA-256 of the UTF-8 user id. -/
def generateUserSalt (userId : String) : List Nat :=
  (sha256Bytes (utf8Encode userId)).take 16

/-- `deriveKeyFromUserId` (lines 13-49): PBKDF2 over the user id with
the user-specific salt, 25000 iterations, SHA-256, yielding a 256-bit
AES-GCM key.  Key derivation is a pure function of `userId`. -/
def deriveKeyFromUserId (userId : String) : List Nat :=
  pbkdf2Sha256Block (utf8Encode userId) (generateUserSalt userId) 25000 1

/-- `isEncrypted` (lines 120-129): `atob` must succeed and decode to at
least 13 bytes (12-byte IV plus at least 1 byte of data). -/
def isEncrypted (text : String) : Bool :=
  match b64Decode text.toList with
  | some decoded => decide (decoded.length ≥ 13)
  | none => false

/-- `encryptText` (lines 52-81), with the AES-GCM encryption primitive
`gcmEncrypt key iv plaintext` as a parameter: derive the key, encrypt
the UTF-8 text, prepend the 12-byte IV and base64 the result.  An empty
`userId` throws (every other failure of the externals is outside the
model), surfaced as `Failed to encrypt text`. -/
def encryptText (gcmEncrypt : List Nat → List Nat → List Nat → List Nat)
    (text userId : String) (iv : List Nat) : Except String String :=
  if userId = "" then .error "Failed to encrypt text"
  else
    let key := deriveKeyFromUserId userId
    let encoded := utf8Encode text
    let encrypted := gcmEncrypt key iv encoded
    let combined := iv ++ encrypted
    .ok (String.mk (b64Encode combined))

/-- `decryptText` (lines 84-117), with the AES-GCM decryption primitive
as a parameter (`none` models the authentication-failure throw): check
the format with `isEncrypted` (returning the input unchanged when it is
not encrypted), split the first 12 decoded bytes off as the IV, decrypt
the remainder with the derived key and UTF-8-decode. -/
def decryptText (gcmDecrypt : List Nat → List Nat → List Nat → Option (List Nat))
    (encryptedText userId : String) : Except String String :=
  if userId = "" then .error "Failed to decrypt text"
  else if isEncrypted encryptedText then
    match b64Decode encryptedText.toList with
    | none => .error "Failed to decrypt text"
    | some decoded =>
      let iv := decoded.take 12
      let encryptedData := decoded.drop 12
      let key := deriveKeyFromUserId userId
      match gcmDecrypt key iv encryptedData with
      | none => .error "Failed to decrypt text"
      | some decrypted =>
        match utf8Decode decrypted with
        | some cs => .ok (String.mk cs)
        | none => .error "Failed to decrypt text"
  else .ok encryptedText

/-- A 4001-character message (test fixture for the length bound). -/
def oversizedMessage : String :=
  ⟨List.replicate 4001 'a'⟩

/-! ### THEOREMS-MARKER: claim theorems and helper lemmas follow -/

/-! ## No complete tag survives sanitization -/

/-- Unfolding `stripTags` at a `<` with a later `>`. -/
theorem stripTags_cons_some {cs rest : List Char} (h : splitAtGt cs = some rest) :
    stripTags ('<' :: cs) = stripTags rest := by
  rw [stripTags, if_pos rfl]
  split
  · rename_i r hr; rw [h] at hr; injection hr with hr; rw [hr]
  · rename_i hr; rw [h] at hr; exact absurd hr (by simp)

/-- Unfolding `stripTags` at a `<` with no later `>`. -/
theorem stripTags_cons_none {cs : List Char} (h : splitAtGt cs = none) :
    stripTags ('<' :: cs) = '<' :: stripTags cs := by
  rw [stripTags, if_pos rfl]
  split
  · rename_i r hr; rw [h] at hr; exact absurd hr (by simp)
  · rfl

/-- Unfolding `stripTags` away from `<`. -/
theorem stripTags_cons_ne {c : Char} {cs : List Char} (h : ¬c = '<') :
    stripTags (c :: cs) = c :: stripTags cs := by
  rw [stripTags, if_neg h]

theorem hasTagPair_cons (c : Char) (cs : List Char) :
    hasTagPair (c :: cs) = if c = '<' then cs.contains '>' else hasTagPair cs := rfl

theorem hasTagPair_iff (l : List Char) :
    hasTagPair l = true ↔ ∃ l₁ l₂ l₃, l = l₁ ++ '<' :: (l₂ ++ '>' :: l₃) := by
  constructor
  · intro h
    induction l with
    | nil => simp [hasTagPair] at h
    | cons c cs ih =>
      rw [hasTagPair_cons] at h
      split at h
      · rename_i hc
        subst hc
        have hm : '>' ∈ cs := by simpa using h
        obtain ⟨s, t, hst⟩ := List.append_of_mem hm
        exact ⟨[], s, t, by simp [hst]⟩
      · obtain ⟨l₁, l₂, l₃, hl⟩ := ih h
        exact ⟨c :: l₁, l₂, l₃, by simp [hl]⟩
  · rintro ⟨l₁, l₂, l₃, rfl⟩
    induction l₁ with
    | nil =>
      rw [List.nil_append, hasTagPair_cons]
      simp
    | cons a l₁ ih =>
      rw [List.cons_append, hasTagPair_cons]
      split
      · simp
      · exact ih

theorem splitAtGt_subset : ∀ {l r : List Char}, splitAtGt l = some r → ∀ a ∈ r, a ∈ l := by
  intro l
  induction l with
  | nil => intro r h; simp [splitAtGt] at h
  | cons c cs ih =>
    intro r h a ha
    rw [splitAtGt] at h
    split at h
    · injection h with h'
      subst h'
      exact List.mem_cons_of_mem _ ha
    · exact List.mem_cons_of_mem _ (ih h a ha)

theorem splitAtGt_none : ∀ {l : List Char}, splitAtGt l = none → '>' ∉ l := by
  intro l
  induction l with
  | nil => intro _; simp
  | cons c cs ih =>
    intro h
    rw [splitAtGt] at h
    split at h
    · simp at h
    · rename_i hc
      simp only [List.mem_cons, not_or]
      exact ⟨fun hgt => hc hgt.symm, ih h⟩

theorem mem_stripTags : ∀ {l : List Char} {a : Char}, a ∈ stripTags l → a ∈ l := by
  intro l
  induction l using stripTags.induct with
  | case1 => intro a ha; simp [stripTags] at ha
  | case2 cs rest hsplit ih =>
    intro a ha
    rw [stripTags_cons_some hsplit] at ha
    exact List.mem_cons_of_mem _ (splitAtGt_subset hsplit a (ih ha))
  | case3 cs hsplit ih =>
    intro a ha
    rw [stripTags_cons_none hsplit] at ha
    rcases List.mem_cons.mp ha with h | h
    · exact h ▸ List.mem_cons_self _ _
    · exact List.mem_cons_of_mem _ (ih h)
  | case4 c cs hc ih =>
    intro a ha
    rw [stripTags_cons_ne hc] at ha
    rcases List.mem_cons.mp ha with h | h
    · exact h ▸ List.mem_cons_self _ _
    · exact List.mem_cons_of_mem _ (ih h)

/-- The tag-stripping replace leaves no `<` that is later followed by a
`>`: a `<` is kept only when no `>` occurs after it, and characters of
the output all come from the input. -/
theorem hasTagPair_stripTags (l : List Char) : hasTagPair (stripTags l) = false := by
  induction l using stripTags.induct with
  | case1 => rw [stripTags]; rfl
  | case2 cs rest hsplit ih =>
    rw [stripTags_cons_some hsplit]
    exact ih
  | case3 cs hsplit ih =>
    rw [stripTags_cons_none hsplit, hasTagPair_cons, if_pos rfl]
    simpa using fun hmem => splitAtGt_none hsplit (mem_stripTags hmem)
  | case4 c cs hc ih =>
    rw [stripTags_cons_ne hc, hasTagPair_cons, if_neg hc]
    exact ih

/-- `hasTagPair` is monotone under infixes (contrapositive form). -/
theorem hasTagPair_of_within {l l' : List Char} (hinf : l' <:+: l)
    (h : hasTagPair l' = true) : hasTagPair l = true := by
  obtain ⟨s, t, rfl⟩ := hinf
  obtain ⟨l₁, l₂, l₃, rfl⟩ := (hasTagPair_iff l').mp h
  exact (hasTagPair_iff _).mpr ⟨s ++ l₁, l₂, l₃ ++ t, by simp⟩

theorem jsTrim_within (l : List Char) : jsTrim l <:+: l := by
  unfold jsTrim
  have h1 : l.dropWhile isJsWhitespace <:+ l := List.dropWhile_suffix _
  have h2 : ((l.dropWhile isJsWhitespace).reverse.dropWhile isJsWhitespace).reverse
      <+: ((l.dropWhile isJsWhitespace).reverse).reverse :=
    List.reverse_prefix.mpr (List.dropWhile_suffix _)
  rw [List.reverse_reverse] at h2
  exact (h2.isInfix).trans h1.isInfix

/-- C9: For every input message, the sanitization step strips script
elements and HTML tags: the sanitized message contains no substring
that starts with `<` and ends with `>` — the single global-replace pass
neither leaves a complete tag in place nor creates a new one by
concatenating text around a removed tag. -/
theorem sanitize_no_tag (s : String) : hasTagPair (sanitizeMessage s).toList = false := by
  have htoList : (sanitizeMessage s).toList = sanitizeChars s.toList := rfl
  rw [htoList]
  unfold sanitizeChars
  by_contra hc
  rw [Bool.not_eq_false] at hc
  have := hasTagPair_of_within (jsTrim_within (stripTags (stripScript s.toList))) hc
  rw [hasTagPair_stripTags] at this
  exact Bool.false_ne_true this

/-! ## Database-layer lemmas -/

theorem map_id_of_eq {α : Type} (f : α → α) (l : List α) (h : ∀ a ∈ l, f a = a) :
    l.map f = l := by
  induction l with
  | nil => rfl
  | cons a as ih =>
    simp only [List.map_cons, h a (List.mem_cons_self a as)]
    rw [ih (fun x hx => h x (List.mem_cons_of_mem a hx))]

theorem filter_singleton_length {α : Type} (p : α → Bool) (a : α) :
    (List.filter p [a]).length = if p a then 1 else 0 := by
  by_cases h : p a <;> simp [List.filter, h]

/-- One `createConversation` call preserves the per-user quota. -/
theorem createConversation_preserves_quota {s : Store} {uid title : String}
    {s' : Store} {c : Conversation} (h : createConversation s uid title = .ok (s', c))
    (u : String) (h3 : userConversationCount s u ≤ 3) :
    userConversationCount s' u ≤ 3 := by
  unfold createConversation at h
  split at h
  · exact absurd h (by simp)
  · rename_i hlt
    injection h with h'
    injection h' with hs hc
    subst hs
    unfold userConversationCount at h3 hlt ⊢
    simp only [List.filter_append, List.length_append, filter_singleton_length]
    by_cases hu : uid = u
    · subst hu
      rw [if_pos (by simp)]
      omega
    · rw [if_neg (by simpa using hu)]
      omega

/-- C7: At every reachable state, each user owns at most 3
conversations: from any state satisfying the quota, no sequence of
`createConversation` calls can leave any user with more than 3 stored
conversations, and a call for a user already at the quota is rejected
by the (spec-modelled) trigger with `Failed to create conversation`. -/
theorem conversation_quota_invariant (s : Store) (hinv : ∀ u, userConversationCount s u ≤ 3)
    (ops : List (String × String)) (u : String) :
    userConversationCount (applyCreates s ops) u ≤ 3 ∧
    (∀ uid title, userConversationCount s uid ≥ 3 →
      createConversation s uid title = .error "Failed to create conversation") := by
  constructor
  · induction ops generalizing s with
    | nil => exact hinv u
    | cons op rest ih =>
      rw [applyCreates]
      rcases hcc : createConversation s op.1 op.2 with e | p
      · exact ih s hinv
      · exact ih p.1 (fun v => createConversation_preserves_quota hcc v (hinv v))
  · intro uid title hge
    unfold createConversation
    rw [if_pos hge]

/-- Witness for C7: from the empty store, five creation attempts by
the same user leave that user with at most 3 conversations. -/
theorem conversation_quota_invariant_witness :
    userConversationCount
      (applyCreates ⟨[], [], 0, 0⟩
        [("u", "a"), ("u", "b"), ("u", "c"), ("u", "d"), ("u", "e")]) "u" ≤ 3 ∧
    createConversation ⟨[⟨0, "u", "a"⟩, ⟨1, "u", "b"⟩, ⟨2, "u", "c"⟩], [], 3, 0⟩ "u" "d" =
      .error "Failed to create conversation" := by
  have h0 := (conversation_quota_invariant ⟨[], [], 0, 0⟩
    (fun u => by simp [userConversationCount])
    [("u", "a"), ("u", "b"), ("u", "c"), ("u", "d"), ("u", "e")] "u").1
  have h3 := (conversation_quota_invariant ⟨[⟨0, "u", "a"⟩, ⟨1, "u", "b"⟩, ⟨2, "u", "c"⟩], [], 3, 0⟩
    (fun v => le_trans (List.length_filter_le _ _) (by decide)) [] "u").2
  exact ⟨h0, h3 "u" "d" (by decide)⟩

/-- C3 counterexample: `updateConversationTitle` invoked by `bob` on
`alice`'s conversation raises no error — it returns success with zero
rows changed — refuting "the operation raises an error". -/
theorem nonOwner_update_no_error :
    updateConversationTitle ⟨[⟨1, "alice", "t"⟩], [], 2, 1⟩ 1 "bob" "hacked" =
      .ok ⟨[⟨1, "alice", "t"⟩], [], 2, 1⟩ ∧
    deleteConversation ⟨[⟨1, "alice", "t"⟩], [], 2, 1⟩ 1 "bob" =
      .ok ⟨[⟨1, "alice", "t"⟩], [], 2, 1⟩ := by
  constructor <;> rfl

/-- C3 (amended): an operation whose caller does not own the target
conversation leaves the store unchanged and can read nothing of it:
title update and deletion return success having touched zero rows
(row-level security and the `user_id` filters match nothing), while
the message operations fail with `Conversation not found`; listing
conversations only ever returns rows owned by the caller. -/
theorem nonOwner_operations_no_effect (s : Store) (cid : Nat)
    (uid title role content : String)
    (hno : ∀ c ∈ s.conversations, c.id = cid → c.user_id ≠ uid) :
    updateConversationTitle s cid uid title = .ok s ∧
    deleteConversation s cid uid = .ok s ∧
    addMessage s cid uid role content = .error "Conversation not found" ∧
    getConversationMessages s cid uid = .error "Conversation not found" ∧
    (∀ res, getUserConversations s uid = .ok res → ∀ c ∈ res, c.user_id = uid) := by
  have hfind : s.conversations.find? (fun c => c.id == cid && convVisible uid c) = none := by
    rw [List.find?_eq_none]
    intro c hc
    simp only [convVisible, Bool.and_eq_true, beq_iff_eq, not_and]
    exact fun hid => hno c hc hid
  have hconvKeep : ∀ c ∈ s.conversations,
      (!(c.id == cid && c.user_id == uid && convVisible uid c)) = true := by
    intro c hc
    by_cases hid : c.id = cid
    · have h1 : (c.user_id == uid) = false := by simpa using hno c hc hid
      simp [convVisible, h1]
    · have h1 : (c.id == cid) = false := by simpa using hid
      simp [h1]
  have hvisFalse : ∀ m : Message, m.conversation_id = cid → msgVisible s uid m = false := by
    intro m hid
    unfold msgVisible
    rw [List.any_eq_false]
    intro c hc
    by_cases hcid : c.id = m.conversation_id
    · have := hno c hc (by rw [hcid, hid])
      simp [this]
    · simp [hcid]
  have hmsgKeep : ∀ m ∈ s.messages,
      (!(m.conversation_id == cid && msgVisible s uid m)) = true := by
    intro m _
    by_cases hid : m.conversation_id = cid
    · simp [hvisFalse m hid]
    · have h1 : (m.conversation_id == cid) = false := by simpa using hid
      simp [h1]
  refine ⟨?_, ?_, ?_, ?_, ?_⟩
  · unfold updateConversationTitle
    have hmap : s.conversations.map (fun c =>
        if c.id == cid && c.user_id == uid && convVisible uid c then
          { c with title := title } else c) = s.conversations := by
      apply map_id_of_eq
      intro c hc
      have := hconvKeep c hc
      simp only [Bool.not_eq_true'] at this
      rw [this]
      simp
    rw [hmap]
  · unfold deleteConversation deleteConversationStep deleteMessagesStep
    rw [List.filter_eq_self.mpr hmsgKeep]
    rw [List.filter_eq_self.mpr hconvKeep]
  · unfold addMessage findOwnedConversation
    rw [hfind]
  · unfold getConversationMessages findOwnedConversation
    rw [hfind]
  · intro res hres c hc
    unfold getUserConversations at hres
    injection hres with hres
    subst hres
    have := List.of_mem_filter hc
    simp only [Bool.and_eq_true, beq_iff_eq] at this
    exact this.1

/-- Witness for the amended C3: concrete non-owner call on a one-row
store. -/
theorem nonOwner_operations_no_effect_witness :
    updateConversationTitle ⟨[⟨1, "alice", "t"⟩], [⟨1, 1, "user", "m"⟩], 2, 2⟩ 1 "bob" "x" =
      .ok ⟨[⟨1, "alice", "t"⟩], [⟨1, 1, "user", "m"⟩], 2, 2⟩ ∧
    addMessage ⟨[⟨1, "alice", "t"⟩], [⟨1, 1, "user", "m"⟩], 2, 2⟩ 1 "bob" "user" "hi" =
      .error "Conversation not found" := by
  have h := nonOwner_operations_no_effect ⟨[⟨1, "alice", "t"⟩], [⟨1, 1, "user", "m"⟩], 2, 2⟩
    1 "bob" "x" "user" "hi" (by decide)
  exact ⟨h.1, h.2.2.1⟩

/-- C6 counterexample: `deleteConversation` called by a non-owner
reports success while a message of that conversation remains — so "no
message with that conversation id remains after a successful delete"
fails without an ownership hypothesis. -/
theorem nonOwner_delete_leaves_messages :
    deleteConversation ⟨[⟨1, "alice", "t"⟩], [⟨1, 1, "user", "hi"⟩], 2, 2⟩ 1 "bob" =
      .ok ⟨[⟨1, "alice", "t"⟩], [⟨1, 1, "user", "hi"⟩], 2, 2⟩ ∧
    ((⟨[⟨1, "alice", "t"⟩], [⟨1, 1, "user", "hi"⟩], 2, 2⟩ : Store).messages.any
      (fun m => m.conversation_id == 1)) = true := by
  constructor <;> rfl

/-- C6 (amended): when the owner deletes a conversation, the delete
succeeds, afterwards no message of that conversation remains, and the
messages are removed by the first store call — before the conversation
row itself is deleted by the second: the intermediate state has the
messages gone with the conversation rows untouched. -/
theorem deleteConversation_cascades (s : Store) (cid : Nat) (uid : String)
    (hown : ∃ c ∈ s.conversations, c.id = cid ∧ c.user_id = uid) :
    deleteConversation s cid uid =
      .ok (deleteConversationStep (deleteMessagesStep s cid uid) cid uid) ∧
    (∀ m ∈ (deleteMessagesStep s cid uid).messages, m.conversation_id ≠ cid) ∧
    (deleteMessagesStep s cid uid).conversations = s.conversations ∧
    (∀ s', deleteConversation s cid uid = .ok s' →
      ∀ m ∈ s'.messages, m.conversation_id ≠ cid) := by
  obtain ⟨c₀, hc₀, hid₀, huid₀⟩ := hown
  have hremoved : ∀ m ∈ (deleteMessagesStep s cid uid).messages, m.conversation_id ≠ cid := by
    intro m hm
    unfold deleteMessagesStep at hm
    have hkeep := List.of_mem_filter hm
    simp only [Bool.not_eq_true', Bool.and_eq_false_iff] at hkeep
    intro hcid
    rcases hkeep with h | h
    · simp [hcid] at h
    · unfold msgVisible at h
      rw [List.any_eq_false] at h
      have := h c₀ hc₀
      simp only [Bool.and_eq_true, beq_iff_eq, not_and] at this
      exact this (by rw [hid₀, hcid]) huid₀
  refine ⟨rfl, hremoved, rfl, ?_⟩
  intro s' hs' m hm
  unfold deleteConversation at hs'
  injection hs' with hs'
  subst hs'
  have hsame : (deleteConversationStep (deleteMessagesStep s cid uid) cid uid).messages =
      (deleteMessagesStep s cid uid).messages := rfl
  rw [hsame] at hm
  exact hremoved m hm

/-! ## Chat-handler lemmas -/

/-- Unfolding `handleMainGpt` once all four validations pass. -/
theorem handleMainGpt_valid (msg : String) (mtO tpO : Option ℚ)
    (mo : Except ApiError ModResult) (co : Except ApiError Completion)
    (h1 : msg ≠ "") (h2 : ¬ msg.length > 4000)
    (h3 : ¬(mtO.getD 150 < 1 ∨ mtO.getD 150 > 1000))
    (h4 : ¬(tpO.getD (7/10) < 0 ∨ tpO.getD (7/10) > 1)) :
    handleMainGpt ⟨some msg, mtO, tpO⟩ mo co =
      match mo with
      | .ok m =>
        if m.flagged then
          ⟨400, .errFlagged "Your message contains content that violates our usage policies. Please rephrase your question in a respectful and appropriate manner." true, none⟩
        else
          mainGptComplete (sanitizeMessage msg) co
      | .error _ => mainGptComplete (sanitizeMessage msg) co := by
  show (if msg = "" then _ else _) = _
  rw [if_neg h1, if_neg h2, if_neg h3, if_neg h4]

/-- Unfolding `handlePublicGpt` once its three validations pass. -/
theorem handlePublicGpt_valid (msg : String) (mtO tpO : Option ℚ)
    (mo : Except ApiError ModResult) (co : Except ApiError Completion)
    (h1 : msg ≠ "") (h2 : jsTrim msg.toList ≠ [])
    (h3 : ¬(mtO.getD 150 < 1 ∨ mtO.getD 150 > 1000)) :
    handlePublicGpt ⟨some msg, mtO, tpO⟩ mo co =
      match mo with
      | .error e => publicGptErrorResponse e none
      | .ok m =>
        if flaggedCategories m ≠ [] then
          ⟨400, .errFlagged ("Content violates our policy: " ++
            String.intercalate ", " (flaggedCategories m)) true, none⟩
        else
          match co with
          | .ok c => ⟨200, .publicSuccess c.content c.totalTokens c.model, some msg⟩
          | .error e => publicGptErrorResponse e (some msg) := by
  show (if msg = "" then _ else _) = _
  rw [if_neg h1, if_neg h2, if_neg h3]

/-- `trim` is the identity on whitespace-free text. -/
theorem jsTrim_of_no_ws {l : List Char} (h : ∀ a ∈ l, isJsWhitespace a = false) :
    jsTrim l = l := by
  have hdrop : ∀ (l' : List Char), (∀ a ∈ l', isJsWhitespace a = false) →
      l'.dropWhile isJsWhitespace = l' := by
    intro l' h'
    cases l' with
    | nil => rfl
    | cons a t =>
      rw [List.dropWhile_cons, if_neg]
      rw [h' a (List.mem_cons_self a t)]
      simp
  unfold jsTrim
  rw [hdrop l h, hdrop _ (fun a ha => h a (List.mem_reverse.mp ha)), List.reverse_reverse]

theorem oversizedMessage_length : oversizedMessage.length = 4001 := by
  show (List.replicate 4001 'a').length = 4001
  exact List.length_replicate _ _

theorem oversizedMessage_ne_empty : oversizedMessage ≠ "" := by
  intro h
  have h' := oversizedMessage_length
  rw [h] at h'
  exact absurd h' (by decide)

theorem oversizedMessage_trim_ne : jsTrim oversizedMessage.toList ≠ [] := by
  show jsTrim (List.replicate 4001 'a') ≠ []
  rw [jsTrim_of_no_ws (fun a ha => by rw [List.eq_of_mem_replicate ha]; rfl)]
  intro h
  have h' : (List.replicate 4001 'a').length = ([] : List Char).length := by rw [h]
  rw [List.length_replicate] at h'
  exact absurd h' (by decide)

theorem mainGptErrorResponse_forwarded (e : ApiError) (f : Option String) :
    (mainGptErrorResponse e f).forwarded = f := by
  unfold mainGptErrorResponse
  split_ifs <;> rfl

theorem publicGptErrorResponse_forwarded (e : ApiError) (f : Option String) :
    (publicGptErrorResponse e f).forwarded = f := by
  unfold publicGptErrorResponse
  split_ifs <;> rfl

theorem mainGptComplete_forwarded (msg : String) (co : Except ApiError Completion) :
    (mainGptComplete msg co).forwarded = some msg := by
  unfold mainGptComplete
  cases co
  · exact mainGptErrorResponse_forwarded _ _
  · rfl

set_option maxRecDepth 8192 in
/-- C1 counterexample: for a message flagged with category `violence`,
the authenticated handler returns 400 but its response body is the
fixed policy string plus `flagged: true` — the flagged category list is
not in the body (the source only logs it to the console). -/
theorem main_flagged_body_has_no_category_list :
    handleMainGpt ⟨some "hello", none, none⟩ (.ok ⟨true, [("violence", true)]⟩)
        (.ok ⟨"x", 1, "m"⟩) =
      ⟨400, .errFlagged "Your message contains content that violates our usage policies. Please rephrase your question in a respectful and appropriate manner." true, none⟩ ∧
    ¬ ("violence".toList <:+:
      "Your message contains content that violates our usage policies. Please rephrase your question in a respectful and appropriate manner.".toList) := by
  constructor
  · rw [handleMainGpt_valid "hello" none none (.ok ⟨true, [("violence", true)]⟩)
      (.ok ⟨"x", 1, "m"⟩) (by decide) (by decide) (by norm_num) (by norm_num)]
    rfl
  · decide

/-- C1 (amended): a flagged message yields 400 with no completion call
in both handlers; the public handler's body lists the flagged
categories in its error string, while the authenticated handler sends
a fixed policy message with a `flagged` marker and logs the categories
server-side only. -/
theorem flagged_message_blocked (msg : String) (mtO tpO : Option ℚ)
    (m : ModResult) (co : Except ApiError Completion)
    (h1 : msg ≠ "") (h2 : ¬ msg.length > 4000)
    (h3 : ¬(mtO.getD 150 < 1 ∨ mtO.getD 150 > 1000))
    (h4 : ¬(tpO.getD (7/10) < 0 ∨ tpO.getD (7/10) > 1))
    (h5 : jsTrim msg.toList ≠ [])
    (hfl : m.flagged = true) (hfc : flaggedCategories m ≠ []) :
    handleMainGpt ⟨some msg, mtO, tpO⟩ (.ok m) co =
      ⟨400, .errFlagged "Your message contains content that violates our usage policies. Please rephrase your question in a respectful and appropriate manner." true, none⟩ ∧
    handlePublicGpt ⟨some msg, mtO, tpO⟩ (.ok m) co =
      ⟨400, .errFlagged ("Content violates our policy: " ++
        String.intercalate ", " (flaggedCategories m)) true, none⟩ := by
  rw [handleMainGpt_valid msg mtO tpO (.ok m) co h1 h2 h3 h4,
    handlePublicGpt_valid msg mtO tpO (.ok m) co h1 h5 h3]
  constructor
  · show (if m.flagged = true then _ else _) = _
    rw [if_pos hfl]
  · show (if flaggedCategories m ≠ [] then _ else _) = _
    rw [if_pos hfc]

/-- Witness for the amended C1 at a concrete flagged request. -/
theorem flagged_message_blocked_witness :
    handleMainGpt ⟨some "hi", none, none⟩ (.ok ⟨true, [("violence", true)]⟩)
        (.ok ⟨"x", 1, "m"⟩) =
      ⟨400, .errFlagged "Your message contains content that violates our usage policies. Please rephrase your question in a respectful and appropriate manner." true, none⟩ ∧
    handlePublicGpt ⟨some "hi", none, none⟩ (.ok ⟨true, [("violence", true)]⟩)
        (.ok ⟨"x", 1, "m"⟩) =
      ⟨400, .errFlagged ("Content violates our policy: " ++
        String.intercalate ", " (flaggedCategories ⟨true, [("violence", true)]⟩)) true,
        none⟩ :=
  flagged_message_blocked "hi" none none ⟨true, [("violence", true)]⟩ (.ok ⟨"x", 1, "m"⟩)
    (by decide) (by decide) (by norm_num) (by norm_num) (by decide) rfl (by decide)

/-- C2 counterexample: in the public handler a failing moderation call
is not swallowed: the request ends with a 500 from the outer catch and
the completion endpoint is never called. -/
theorem public_moderation_error_not_swallowed :
    handlePublicGpt ⟨some "hello", none, none⟩ (.error ⟨none, "boom"⟩) (.ok ⟨"x", 1, "m"⟩) =
      ⟨500, .errMsg "An error occurred while processing your request", none⟩ ∧
    (handlePublicGpt ⟨some "hello", none, none⟩ (.error ⟨none, "boom"⟩)
        (.ok ⟨"x", 1, "m"⟩)).completionCalled = false := by
  have h := handlePublicGpt_valid "hello" none none (.error ⟨none, "boom"⟩)
    (.ok ⟨"x", 1, "m"⟩) (by decide) (by decide) (by norm_num)
  rw [h]
  constructor
  · rfl
  · rfl

/-- C2 (amended): only the authenticated handler fails open — on a
moderation error it continues and forwards the sanitized message to
the completion endpoint; the public handler maps the moderation error
through its catch block (500/429) and never calls completion. -/
theorem moderation_failure_handling (msg : String) (mtO tpO : Option ℚ)
    (e : ApiError) (co : Except ApiError Completion)
    (h1 : msg ≠ "") (h2 : ¬ msg.length > 4000)
    (h3 : ¬(mtO.getD 150 < 1 ∨ mtO.getD 150 > 1000))
    (h4 : ¬(tpO.getD (7/10) < 0 ∨ tpO.getD (7/10) > 1))
    (h5 : jsTrim msg.toList ≠ []) :
    handleMainGpt ⟨some msg, mtO, tpO⟩ (.error e) co =
      mainGptComplete (sanitizeMessage msg) co ∧
    (handleMainGpt ⟨some msg, mtO, tpO⟩ (.error e) co).forwarded =
      some (sanitizeMessage msg) ∧
    handlePublicGpt ⟨some msg, mtO, tpO⟩ (.error e) co = publicGptErrorResponse e none ∧
    (handlePublicGpt ⟨some msg, mtO, tpO⟩ (.error e) co).completionCalled = false := by
  have hm := handleMainGpt_valid msg mtO tpO (.error e) co h1 h2 h3 h4
  have hp := handlePublicGpt_valid msg mtO tpO (.error e) co h1 h5 h3
  refine ⟨hm, ?_, hp, ?_⟩
  · rw [hm]
    exact mainGptComplete_forwarded _ _
  · rw [hp]
    show (publicGptErrorResponse e none).forwarded.isSome = false
    rw [publicGptErrorResponse_forwarded]
    rfl

/-- Witness for the amended C2 at a concrete moderation failure. -/
theorem moderation_failure_handling_witness :
    handleMainGpt ⟨some "hi", none, none⟩ (.error ⟨none, "outage"⟩) (.ok ⟨"x", 1, "m"⟩) =
      mainGptComplete (sanitizeMessage "hi") (.ok ⟨"x", 1, "m"⟩) ∧
    handlePublicGpt ⟨some "hi", none, none⟩ (.error ⟨none, "outage"⟩) (.ok ⟨"x", 1, "m"⟩) =
      publicGptErrorResponse ⟨none, "outage"⟩ none := by
  have h := moderation_failure_handling "hi" none none ⟨none, "outage"⟩ (.ok ⟨"x", 1, "m"⟩)
    (by decide) (by decide) (by norm_num) (by norm_num) (by decide)
  exact ⟨h.1, h.2.2.1⟩

/-- C4 counterexample: the public handler accepts and forwards a
4001-character message with an out-of-range temperature — no 400, and
the completion endpoint is called. -/
theorem public_no_length_or_temperature_check :
    handlePublicGpt ⟨some oversizedMessage, none, some 5⟩ (.ok ⟨false, []⟩)
        (.ok ⟨"resp", 5, "gpt-4o-mini"⟩) =
      ⟨200, .publicSuccess "resp" 5 "gpt-4o-mini", some oversizedMessage⟩ ∧
    oversizedMessage.length > 4000 ∧
    ((5 : ℚ) > 1) := by
  refine ⟨?_, by rw [oversizedMessage_length]; omega, by norm_num⟩
  have h := handlePublicGpt_valid oversizedMessage none (some 5)
    (.ok ⟨false, []⟩) (.ok ⟨"resp", 5, "gpt-4o-mini"⟩)
    oversizedMessage_ne_empty oversizedMessage_trim_ne (by norm_num)
  rw [h]
  rfl

/-- C4 (amended): the authenticated handler rejects each of the four
invalid cases with 400, the matching message and no completion call;
the public handler rejects only a missing/empty message and an
out-of-range `maxTokens` — it has no length check and no temperature
check, forwarding such requests to the completion endpoint. -/
theorem chat_request_validation (mtO tpO : Option ℚ)
    (mo : Except ApiError ModResult) (co : Except ApiError Completion) :
    (handleMainGpt ⟨none, mtO, tpO⟩ mo co =
      ⟨400, .errMsg "Message is required", none⟩) ∧
    (∀ msg : String, msg ≠ "" → msg.length > 4000 →
      handleMainGpt ⟨some msg, mtO, tpO⟩ mo co =
        ⟨400, .errMsg "Message too long. Maximum 4000 characters allowed.", none⟩) ∧
    (∀ msg : String, msg ≠ "" → ¬ msg.length > 4000 →
      (mtO.getD 150 < 1 ∨ mtO.getD 150 > 1000) →
      handleMainGpt ⟨some msg, mtO, tpO⟩ mo co =
        ⟨400, .errMsg "maxTokens must be between 1 and 1000", none⟩) ∧
    (∀ msg : String, msg ≠ "" → ¬ msg.length > 4000 →
      ¬(mtO.getD 150 < 1 ∨ mtO.getD 150 > 1000) →
      (tpO.getD (7/10) < 0 ∨ tpO.getD (7/10) > 1) →
      handleMainGpt ⟨some msg, mtO, tpO⟩ mo co =
        ⟨400, .errMsg "temperature must be between 0 and 1", none⟩) ∧
    (handlePublicGpt ⟨none, mtO, tpO⟩ mo co =
      ⟨400, .errMsg "Message is required and must be a string", none⟩) ∧
    (∀ msg : String, msg ≠ "" → jsTrim msg.toList ≠ [] →
      (mtO.getD 150 < 1 ∨ mtO.getD 150 > 1000) →
      handlePublicGpt ⟨some msg, mtO, tpO⟩ mo co =
        ⟨400, .errMsg "maxTokens must be between 1 and 1000", none⟩) ∧
    (∀ (msg : String) (m : ModResult) (c : Completion),
      msg ≠ "" → jsTrim msg.toList ≠ [] →
      ¬(mtO.getD 150 < 1 ∨ mtO.getD 150 > 1000) → flaggedCategories m = [] →
      handlePublicGpt ⟨some msg, mtO, tpO⟩ (.ok m) (.ok c) =
        ⟨200, .publicSuccess c.content c.totalTokens c.model, some msg⟩) := by
  refine ⟨rfl, ?_, ?_, ?_, rfl, ?_, ?_⟩
  · intro msg h1 h2
    show (if msg = "" then _ else _) = _
    rw [if_neg h1, if_pos h2]
  · intro msg h1 h2 h3
    show (if msg = "" then _ else _) = _
    rw [if_neg h1, if_neg h2, if_pos h3]
  · intro msg h1 h2 h3 h4
    show (if msg = "" then _ else _) = _
    rw [if_neg h1, if_neg h2, if_neg h3, if_pos h4]
  · intro msg h1 h2 h3
    show (if msg = "" then _ else _) = _
    rw [if_neg h1, if_neg h2, if_pos h3]
  · intro msg m c h1 h2 h3 hfc
    rw [handlePublicGpt_valid msg mtO tpO (.ok m) (.ok c) h1 h2 h3]
    show (if flaggedCategories m ≠ [] then _ else _) = _
    rw [if_neg (by simp [hfc])]

/-- Witness for the amended C4 at concrete invalid requests. -/
theorem chat_request_validation_witness :
    handleMainGpt ⟨some oversizedMessage, none, none⟩ (.ok ⟨false, []⟩) (.ok ⟨"x", 1, "m"⟩) =
      ⟨400, .errMsg "Message too long. Maximum 4000 characters allowed.", none⟩ ∧
    handleMainGpt ⟨some "hi", some 5000, none⟩ (.ok ⟨false, []⟩) (.ok ⟨"x", 1, "m"⟩) =
      ⟨400, .errMsg "maxTokens must be between 1 and 1000", none⟩ ∧
    handleMainGpt ⟨some "hi", some 100, some 2⟩ (.ok ⟨false, []⟩) (.ok ⟨"x", 1, "m"⟩) =
      ⟨400, .errMsg "temperature must be between 0 and 1", none⟩ ∧
    handlePublicGpt ⟨some "hi", some 5000, none⟩ (.ok ⟨false, []⟩) (.ok ⟨"x", 1, "m"⟩) =
      ⟨400, .errMsg "maxTokens must be between 1 and 1000", none⟩ := by
  refine ⟨(chat_request_validation none none (.ok ⟨false, []⟩) (.ok ⟨"x", 1, "m"⟩)).2.1
      oversizedMessage oversizedMessage_ne_empty (by rw [oversizedMessage_length]; omega),
    (chat_request_validation (some 5000) none (.ok ⟨false, []⟩) (.ok ⟨"x", 1, "m"⟩)).2.2.1
      "hi" (by decide) (by decide) (by norm_num),
    (chat_request_validation (some 100) (some 2) (.ok ⟨false, []⟩) (.ok ⟨"x", 1, "m"⟩)).2.2.2.1
      "hi" (by decide) (by decide) (by norm_num) (by norm_num),
    (chat_request_validation (some 5000) none (.ok ⟨false, []⟩)
      (.ok ⟨"x", 1, "m"⟩)).2.2.2.2.2.1 "hi" (by decide) (by decide) (by norm_num)⟩

/-- C5 counterexample: in the public handler an `invalid_api_key`
completion error is answered with 500 (not 401), `insufficient_quota`
with 500 (not 402) and `rate_limit_exceeded` with 429 (not 500). -/
theorem public_provider_errors_not_fixed_mapping :
    (handlePublicGpt ⟨some "hello", none, none⟩ (.ok ⟨false, []⟩)
      (.error ⟨some "invalid_api_key", "bad"⟩)).status = 500 ∧
    (handlePublicGpt ⟨some "hello", none, none⟩ (.ok ⟨false, []⟩)
      (.error ⟨some "insufficient_quota", "quota"⟩)).status = 500 ∧
    (handlePublicGpt ⟨some "hello", none, none⟩ (.ok ⟨false, []⟩)
      (.error ⟨some "rate_limit_exceeded", "rl"⟩)).status = 429 := by
  refine ⟨?_, ?_, ?_⟩ <;>
  · rw [handlePublicGpt_valid "hello" none none (.ok ⟨false, []⟩) _
      (by decide) (by decide) (by norm_num)]
    rfl

/-- C5 (amended): the authenticated handler maps completion-provider
errors to the fixed statuses 402 (insufficient quota), 401 (invalid
API key) and 500 (anything else); the public handler instead answers
429 for `rate_limit_exceeded` and 500 for everything else, and in both
handlers the error arises only after the completion endpoint was
called. -/
theorem provider_error_status_mapping (msg : String) (mtO tpO : Option ℚ)
    (m : ModResult) (e : ApiError)
    (h1 : msg ≠ "") (h2 : ¬ msg.length > 4000)
    (h3 : ¬(mtO.getD 150 < 1 ∨ mtO.getD 150 > 1000))
    (h4 : ¬(tpO.getD (7/10) < 0 ∨ tpO.getD (7/10) > 1))
    (h5 : jsTrim msg.toList ≠ [])
    (hfl : m.flagged = false) (hfc : flaggedCategories m = []) :
    (handleMainGpt ⟨some msg, mtO, tpO⟩ (.ok m) (.error e)).status =
      (if e.code = some "insufficient_quota" then 402
       else if e.code = some "invalid_api_key" then 401 else 500) ∧
    (handleMainGpt ⟨some msg, mtO, tpO⟩ (.ok m) (.error e)).completionCalled = true ∧
    (handlePublicGpt ⟨some msg, mtO, tpO⟩ (.ok m) (.error e)).status =
      (if e.code = some "rate_limit_exceeded" then 429 else 500) ∧
    (handlePublicGpt ⟨some msg, mtO, tpO⟩ (.ok m) (.error e)).completionCalled = true := by
  have hm : handleMainGpt ⟨some msg, mtO, tpO⟩ (.ok m) (.error e) =
      mainGptComplete (sanitizeMessage msg) (.error e) := by
    rw [handleMainGpt_valid msg mtO tpO (.ok m) (.error e) h1 h2 h3 h4]
    show (if m.flagged = true then _ else _) = _
    rw [if_neg (by simp [hfl])]
  have hp : handlePublicGpt ⟨some msg, mtO, tpO⟩ (.ok m) (.error e) =
      publicGptErrorResponse e (some msg) := by
    rw [handlePublicGpt_valid msg mtO tpO (.ok m) (.error e) h1 h5 h3]
    show (if flaggedCategories m ≠ [] then _ else _) = _
    rw [if_neg (by simp [hfc])]
  rw [hm, hp]
  refine ⟨?_, ?_, ?_, ?_⟩
  · show (mainGptErrorResponse e (some (sanitizeMessage msg))).status = _
    unfold mainGptErrorResponse
    split_ifs <;> rfl
  · show (mainGptErrorResponse e (some (sanitizeMessage msg))).forwarded.isSome = true
    rw [mainGptErrorResponse_forwarded]
    rfl
  · unfold publicGptErrorResponse
    split_ifs with ha hb hc <;> simp_all
  · show (publicGptErrorResponse e (some msg)).forwarded.isSome = true
    rw [publicGptErrorResponse_forwarded]
    rfl

/-- Witness for the amended C5 at concrete provider errors. -/
theorem provider_error_status_mapping_witness :
    (handleMainGpt ⟨some "hi", none, none⟩ (.ok ⟨false, []⟩)
      (.error ⟨some "insufficient_quota", "q"⟩)).status = 402 ∧
    (handlePublicGpt ⟨some "hi", none, none⟩ (.ok ⟨false, []⟩)
      (.error ⟨some "insufficient_quota", "q"⟩)).status = 500 := by
  have h := provider_error_status_mapping "hi" none none ⟨false, []⟩
    ⟨some "insufficient_quota", "q"⟩ (by decide) (by decide) (by norm_num) (by norm_num)
    (by decide) rfl (by decide)
  exact ⟨by rw [h.1]; rfl, by rw [h.2.2.1]; rfl⟩

/-- Witness for the amended C6: the owner deletes their conversation
and its message disappears. -/
theorem deleteConversation_cascades_witness :
    deleteConversation ⟨[⟨1, "alice", "t"⟩], [⟨1, 1, "user", "hi"⟩], 2, 2⟩ 1 "alice" =
      .ok (deleteConversationStep
        (deleteMessagesStep ⟨[⟨1, "alice", "t"⟩], [⟨1, 1, "user", "hi"⟩], 2, 2⟩ 1 "alice")
        1 "alice") ∧
    (∀ m ∈ (deleteMessagesStep ⟨[⟨1, "alice", "t"⟩], [⟨1, 1, "user", "hi"⟩], 2, 2⟩
      1 "alice").messages, m.conversation_id ≠ 1) := by
  have h := deleteConversation_cascades ⟨[⟨1, "alice", "t"⟩], [⟨1, 1, "user", "hi"⟩], 2, 2⟩
    1 "alice" ⟨⟨1, "alice", "t"⟩, by simp, rfl, rfl⟩
  exact ⟨h.1, h.2.1⟩

/-! ## Rate-limiter cap lemma -/

theorem allowedHits_le (p : RateLimitPolicy) :
    ∀ (reqs : List LimitRequest) (counts : String → Nat) (k : String),
      allowedHits p counts reqs k ≤ p.maxReqs - counts k := by
  intro reqs
  induction reqs with
  | nil => intro counts k; simp [allowedHits]
  | cons r rs ih =>
    intro counts k
    rw [allowedHits]
    split
    · exact (ih counts k).trans (Nat.sub_le_sub_left (Nat.le_refl _) _)
    · show (if p.keyGen r = k ∧ counts (p.keyGen r) + 1 ≤ p.maxReqs then 1 else 0) +
        allowedHits p (bumpCount counts (p.keyGen r) (counts (p.keyGen r) + 1)) rs k ≤
        p.maxReqs - counts k
      by_cases hkr : p.keyGen r = k
      · by_cases hc : counts (p.keyGen r) + 1 ≤ p.maxReqs
        · rw [if_pos ⟨hkr, hc⟩]
          have hbump : bumpCount counts (p.keyGen r) (counts (p.keyGen r) + 1) k =
              counts (p.keyGen r) + 1 := by
            unfold bumpCount
            rw [if_pos hkr.symm]
          have h2 := ih (bumpCount counts (p.keyGen r) (counts (p.keyGen r) + 1)) k
          rw [hbump] at h2
          have hck : counts (p.keyGen r) = counts k := by rw [hkr]
          omega
        · rw [if_neg (fun hand => hc hand.2)]
          have hbump : bumpCount counts (p.keyGen r) (counts (p.keyGen r) + 1) k =
              counts (p.keyGen r) + 1 := by
            unfold bumpCount
            rw [if_pos hkr.symm]
          have h2 := ih (bumpCount counts (p.keyGen r) (counts (p.keyGen r) + 1)) k
          rw [hbump] at h2
          have hck : counts (p.keyGen r) = counts k := by rw [hkr]
          omega
      · rw [if_neg (fun hand => hkr hand.1)]
        have hbump : bumpCount counts (p.keyGen r) (counts (p.keyGen r) + 1) k = counts k := by
          unfold bumpCount
          rw [if_neg (fun h => hkr h.symm)]
        have h2 := ih (bumpCount counts (p.keyGen r) (counts (p.keyGen r) + 1)) k
        rw [hbump] at h2
        omega

set_option maxRecDepth 8192 in
/-- C8: the authenticated limiter uses a 15-minute window with a cap
of 50 per key; its key is the session id when present and otherwise
the SHA-256 hex digest of `ip ++ date ++ salt`, so all same-day
session-less requests from one address share one key, while on two
different days the keys differ (shown concretely for two consecutive
dates — day-distinctness in general is SHA-256 collision-freedom);
the public limiter caps each client address at 10 per 15 minutes; and
under the middleware's counting semantics at most `max` hits of any
key pass in a window. -/
theorem rate_limiting_policies :
    (∀ salt date, (limiter salt date).windowMs = 15 * 60 * 1000 ∧
      (limiter salt date).maxReqs = 50) ∧
    (∀ salt date sid ip path, (limiter salt date).keyGen ⟨some sid, ip, path⟩ = sid) ∧
    (∀ salt date ip path, (limiter salt date).keyGen ⟨none, ip, path⟩ =
      sha256Hex (ip ++ date ++ salt)) ∧
    (∀ salt date ip p₁ p₂, (limiter salt date).keyGen ⟨none, ip, p₁⟩ =
      (limiter salt date).keyGen ⟨none, ip, p₂⟩) ∧
    (authLimiterKey "default-salt" "Fri Oct 10 2025" ⟨none, "127.0.0.1", "/api/gpt"⟩ ≠
      authLimiterKey "default-salt" "Sat Oct 11 2025" ⟨none, "127.0.0.1", "/api/gpt"⟩) ∧
    (publicRateLimit.windowMs = 15 * 60 * 1000 ∧ publicRateLimit.maxReqs = 10 ∧
      ∀ r, publicRateLimit.keyGen r = r.ip) ∧
    (∀ salt date reqs k, allowedHits (limiter salt date) (fun _ => 0) reqs k ≤ 50) ∧
    (∀ reqs k, allowedHits publicRateLimit (fun _ => 0) reqs k ≤ 10) := by
  refine ⟨fun _ _ => ⟨rfl, rfl⟩, fun _ _ _ _ _ => rfl, fun _ _ _ _ => rfl,
    fun _ _ _ _ _ => rfl, by decide, ⟨rfl, rfl, fun _ => rfl⟩, ?_, ?_⟩
  · intro salt date reqs k
    simpa using allowedHits_le (limiter salt date) reqs (fun _ => 0) k
  · intro reqs k
    simpa using allowedHits_le publicRateLimit reqs (fun _ => 0) k

/-! ## Base64 round trip -/

set_option maxRecDepth 8192 in
theorem b64Index_b64Char : ∀ n < 64, b64Index (b64Char n) = some n := by decide

set_option maxRecDepth 8192 in
theorem b64Char_ne_pad : ∀ n < 64, b64Char n ≠ '=' := by decide

theorem b64DecodeGroup_full (b1 b2 b3 : Nat) (h1 : b1 < 256) (h2 : b2 < 256) (h3 : b3 < 256) :
    b64DecodeGroup (b64Char (b1 / 4)) (b64Char (b1 % 4 * 16 + b2 / 16))
      (b64Char (b2 % 16 * 4 + b3 / 64)) (b64Char (b3 % 64)) = some [b1, b2, b3] := by
  have s1 : b1 / 4 < 64 := by omega
  have s2 : b1 % 4 * 16 + b2 / 16 < 64 := by omega
  have s3 : b2 % 16 * 4 + b3 / 64 < 64 := by omega
  have s4 : b3 % 64 < 64 := by omega
  unfold b64DecodeGroup
  rw [b64Index_b64Char _ s1, b64Index_b64Char _ s2]
  show (if b64Char (b2 % 16 * 4 + b3 / 64) = '=' then _ else _) = _
  rw [if_neg (b64Char_ne_pad _ s3), b64Index_b64Char _ s3]
  show (if b64Char (b3 % 64) = '=' then _ else _) = _
  rw [if_neg (b64Char_ne_pad _ s4), b64Index_b64Char _ s4]
  have e1 : b1 / 4 * 4 + (b1 % 4 * 16 + b2 / 16) / 16 = b1 := by omega
  have e2 : (b1 % 4 * 16 + b2 / 16) % 16 * 16 + (b2 % 16 * 4 + b3 / 64) / 4 = b2 := by omega
  have e3 : (b2 % 16 * 4 + b3 / 64) % 4 * 64 + b3 % 64 = b3 := by omega
  show some [b1 / 4 * 4 + (b1 % 4 * 16 + b2 / 16) / 16,
    (b1 % 4 * 16 + b2 / 16) % 16 * 16 + (b2 % 16 * 4 + b3 / 64) / 4,
    (b2 % 16 * 4 + b3 / 64) % 4 * 64 + b3 % 64] = some [b1, b2, b3]
  rw [e1, e2, e3]

theorem b64DecodeGroup_one (b1 : Nat) (h1 : b1 < 256) :
    b64DecodeGroup (b64Char (b1 / 4)) (b64Char (b1 % 4 * 16)) '=' '=' = some [b1] := by
  have s1 : b1 / 4 < 64 := by omega
  have s2 : b1 % 4 * 16 < 64 := by omega
  unfold b64DecodeGroup
  rw [b64Index_b64Char _ s1, b64Index_b64Char _ s2]
  show (if ('=' : Char) = '=' then _ else _) = _
  rw [if_pos rfl, if_pos rfl]
  have e1 : b1 / 4 * 4 + b1 % 4 * 16 / 16 = b1 := by omega
  rw [e1]

theorem b64DecodeGroup_two (b1 b2 : Nat) (h1 : b1 < 256) (h2 : b2 < 256) :
    b64DecodeGroup (b64Char (b1 / 4)) (b64Char (b1 % 4 * 16 + b2 / 16))
      (b64Char (b2 % 16 * 4)) '=' = some [b1, b2] := by
  have s1 : b1 / 4 < 64 := by omega
  have s2 : b1 % 4 * 16 + b2 / 16 < 64 := by omega
  have s3 : b2 % 16 * 4 < 64 := by omega
  unfold b64DecodeGroup
  rw [b64Index_b64Char _ s1, b64Index_b64Char _ s2]
  show (if b64Char (b2 % 16 * 4) = '=' then _ else _) = _
  rw [if_neg (b64Char_ne_pad _ s3), b64Index_b64Char _ s3]
  show (if ('=' : Char) = '=' then _ else _) = _
  rw [if_pos rfl]
  have e1 : b1 / 4 * 4 + (b1 % 4 * 16 + b2 / 16) / 16 = b1 := by omega
  have e2 : (b1 % 4 * 16 + b2 / 16) % 16 * 16 + b2 % 16 * 4 / 4 = b2 := by omega
  show some [b1 / 4 * 4 + (b1 % 4 * 16 + b2 / 16) / 16,
    (b1 % 4 * 16 + b2 / 16) % 16 * 16 + b2 % 16 * 4 / 4] = some [b1, b2]
  rw [e1, e2]

theorem b64_roundtrip : ∀ (bs : List Nat), (∀ b ∈ bs, b < 256) →
    b64Decode (b64Encode bs) = some bs := by
  intro bs
  induction bs using b64Encode.induct with
  | case1 => intro _; rfl
  | case2 b1 =>
    intro h
    rw [b64Encode, b64Decode, b64DecodeGroup_one b1 (h b1 (by simp))]
    rfl
  | case3 b1 b2 =>
    intro h
    rw [b64Encode, b64Decode,
      b64DecodeGroup_two b1 b2 (h b1 (by simp)) (h b2 (by simp))]
    rfl
  | case4 b1 b2 b3 rest ih =>
    intro h
    rw [b64Encode, b64Decode,
      b64DecodeGroup_full b1 b2 b3 (h b1 (by simp)) (h b2 (by simp)) (h b3 (by simp)),
      ih (fun b hb => h b (by simp [hb]))]
    rfl

/-! ## UTF-8 round trip -/

theorem utf8Decode_head {b : Nat} {bs : List Nat} {n : Nat} {rest : List Nat}
    (h : utf8Head b bs = some (n, rest)) :
    utf8Decode (b :: bs) = (utf8Decode rest).map (fun cs => Char.ofNat n :: cs) := by
  rw [utf8Decode]
  split
  · rename_i n' rest' hp
    rw [h] at hp
    injection hp with hp
    cases hp
    rfl
  · rename_i hp
    rw [h] at hp
    exact absurd hp (by simp)

theorem utf8Head_one (n : Nat) (h : n < 0x80) (bs : List Nat) :
    utf8Head n bs = some (n, bs) := by
  unfold utf8Head
  rw [if_pos h]

theorem utf8Head_two (n : Nat) (h1 : 0x80 ≤ n) (h2 : n < 0x800) (bs : List Nat) :
    utf8Head (0xC0 + n / 64) ((0x80 + n % 64) :: bs) = some (n, bs) := by
  unfold utf8Head
  rw [if_neg (by omega), if_pos (by omega)]
  show (if 0x80 ≤ 0x80 + n % 64 ∧ 0x80 + n % 64 < 0xC0 then _ else _) = _
  rw [if_pos (by omega)]
  have hn : (0xC0 + n / 64 - 0xC0) * 64 + (0x80 + n % 64 - 0x80) = n := by omega
  rw [hn, if_pos h1]

theorem utf8Head_three (n : Nat) (h1 : 0x800 ≤ n) (h2 : n < 0x10000)
    (hs : ¬(0xD800 ≤ n ∧ n < 0xE000)) (bs : List Nat) :
    utf8Head (0xE0 + n / 4096) ((0x80 + n / 64 % 64) :: (0x80 + n % 64) :: bs) =
      some (n, bs) := by
  unfold utf8Head
  rw [if_neg (by omega), if_neg (by omega), if_pos (by omega)]
  show (if (0x80 ≤ 0x80 + n / 64 % 64 ∧ 0x80 + n / 64 % 64 < 0xC0) ∧
      (0x80 ≤ 0x80 + n % 64 ∧ 0x80 + n % 64 < 0xC0) then _ else _) = _
  rw [if_pos (by omega)]
  have hn : (0xE0 + n / 4096 - 0xE0) * 4096 + (0x80 + n / 64 % 64 - 0x80) * 64 +
      (0x80 + n % 64 - 0x80) = n := by omega
  rw [hn, if_pos ⟨h1, hs⟩]

theorem utf8Head_four (n : Nat) (h1 : 0x10000 ≤ n) (h2 : n < 0x110000) (bs : List Nat) :
    utf8Head (0xF0 + n / 0x40000)
      ((0x80 + n / 4096 % 64) :: (0x80 + n / 64 % 64) :: (0x80 + n % 64) :: bs) =
      some (n, bs) := by
  unfold utf8Head
  rw [if_neg (by omega), if_neg (by omega), if_neg (by omega), if_pos (by omega)]
  show (if (0x80 ≤ 0x80 + n / 4096 % 64 ∧ 0x80 + n / 4096 % 64 < 0xC0) ∧
      (0x80 ≤ 0x80 + n / 64 % 64 ∧ 0x80 + n / 64 % 64 < 0xC0) ∧
      (0x80 ≤ 0x80 + n % 64 ∧ 0x80 + n % 64 < 0xC0) then _ else _) = _
  rw [if_pos (by omega)]
  have hn : (0xF0 + n / 0x40000 - 0xF0) * 0x40000 + (0x80 + n / 4096 % 64 - 0x80) * 4096 +
      (0x80 + n / 64 % 64 - 0x80) * 64 + (0x80 + n % 64 - 0x80) = n := by omega
  rw [hn, if_pos ⟨h1, h2⟩]

theorem utf8Decode_encodeChar (c : Char) (bs : List Nat) :
    utf8Decode (utf8EncodeChar c ++ bs) = (utf8Decode bs).map (fun cs => c :: cs) := by
  have hv := c.valid
  have ht : c.toNat = c.val.toNat := rfl
  unfold utf8EncodeChar
  by_cases ha : c.toNat < 0x80
  · rw [if_pos ha]
    show utf8Decode (c.toNat :: bs) = _
    rw [utf8Decode_head (utf8Head_one c.toNat ha bs), Char.ofNat_toNat]
  · rw [if_neg ha]
    by_cases hb : c.toNat < 0x800
    · rw [if_pos hb]
      show utf8Decode ((0xC0 + c.toNat / 64) :: (0x80 + c.toNat % 64) :: bs) = _
      rw [utf8Decode_head (utf8Head_two c.toNat (by omega) hb bs), Char.ofNat_toNat]
    · rw [if_neg hb]
      by_cases hc : c.toNat < 0x10000
      · rw [if_pos hc]
        have hs : ¬(0xD800 ≤ c.toNat ∧ c.toNat < 0xE000) := by
          rcases hv with h | h <;> omega
        show utf8Decode ((0xE0 + c.toNat / 4096) :: (0x80 + c.toNat / 64 % 64) ::
          (0x80 + c.toNat % 64) :: bs) = _
        rw [utf8Decode_head (utf8Head_three c.toNat (by omega) hc hs bs), Char.ofNat_toNat]
      · rw [if_neg hc]
        have h4 : c.toNat < 0x110000 := by
          rcases hv with h | h <;> omega
        show utf8Decode ((0xF0 + c.toNat / 0x40000) :: (0x80 + c.toNat / 4096 % 64) ::
          (0x80 + c.toNat / 64 % 64) :: (0x80 + c.toNat % 64) :: bs) = _
        rw [utf8Decode_head (utf8Head_four c.toNat (by omega) h4 bs), Char.ofNat_toNat]

theorem utf8Encode_decode (l : List Char) :
    utf8Decode (l.flatMap utf8EncodeChar) = some l := by
  induction l with
  | nil => rw [List.flatMap_nil, utf8Decode]
  | cons c cs ih =>
    rw [List.flatMap_cons, utf8Decode_encodeChar, ih]
    rfl

theorem utf8EncodeChar_lt (c : Char) : ∀ b ∈ utf8EncodeChar c, b < 256 := by
  intro b hb
  have ht : c.toNat = c.val.toNat := rfl
  have h4 : c.toNat < 0x110000 := by
    rcases c.valid with h | h <;> omega
  unfold utf8EncodeChar at hb
  split_ifs at hb with h1 h2 h3
  · simp at hb
    omega
  · simp at hb
    rcases hb with hb | hb <;> omega
  · simp at hb
    rcases hb with hb | hb | hb <;> omega
  · simp at hb
    rcases hb with hb | hb | hb | hb <;> omega

theorem utf8Encode_lt (s : String) : ∀ b ∈ utf8Encode s, b < 256 := by
  intro b hb
  unfold utf8Encode at hb
  obtain ⟨c, _, hc⟩ := List.mem_flatMap.mp hb
  exact utf8EncodeChar_lt c b hc

/-- C10: decrypting the result of `encryptText` with the same non-empty
user id returns the original text.  The AES-GCM primitive of the Web
Crypto API enters as a pair of function parameters together with its
contract (decryption inverts encryption under the same key and IV, the
ciphertext carries a 16-byte tag, and it consists of bytes); key
derivation is a pure function of the user id, so both directions derive
the same key; `encryptText`'s output always satisfies `isEncrypted`
(at least 13 decoded bytes), and `decryptText` splits off exactly the
12-byte IV that `encryptText` prepends. -/
theorem encryptText_decryptText_roundtrip
    (gcmEncrypt : List Nat → List Nat → List Nat → List Nat)
    (gcmDecrypt : List Nat → List Nat → List Nat → Option (List Nat))
    (hinv : ∀ k iv p, gcmDecrypt k iv (gcmEncrypt k iv p) = some p)
    (hlen : ∀ k iv p, (gcmEncrypt k iv p).length = p.length + 16)
    (hbytes : ∀ k iv p, (∀ b ∈ p, b < 256) → ∀ b ∈ gcmEncrypt k iv p, b < 256)
    (text userId : String) (huid : userId ≠ "")
    (iv : List Nat) (hiv : iv.length = 12) (hivb : ∀ b ∈ iv, b < 256) :
    ∃ ct : String,
      encryptText gcmEncrypt text userId iv = .ok ct ∧
      isEncrypted ct = true ∧
      decryptText gcmDecrypt ct userId = .ok text := by
  have henc : encryptText gcmEncrypt text userId iv =
      .ok ⟨b64Encode (iv ++ gcmEncrypt (deriveKeyFromUserId userId) iv (utf8Encode text))⟩ := by
    unfold encryptText
    rw [if_neg huid]
  refine ⟨⟨b64Encode (iv ++ gcmEncrypt (deriveKeyFromUserId userId) iv (utf8Encode text))⟩,
    henc, ?_, ?_⟩
  all_goals
    have hballs : ∀ b ∈ iv ++ gcmEncrypt (deriveKeyFromUserId userId) iv (utf8Encode text),
        b < 256 := by
      intro b hb
      rcases List.mem_append.mp hb with hl | hr
      · exact hivb b hl
      · exact hbytes _ _ _ (utf8Encode_lt text) b hr
  all_goals
    have hdec : b64Decode (String.mk (b64Encode (iv ++
        gcmEncrypt (deriveKeyFromUserId userId) iv (utf8Encode text)))).toList =
        some (iv ++ gcmEncrypt (deriveKeyFromUserId userId) iv (utf8Encode text)) := by
      show b64Decode (b64Encode _) = _
      exact b64_roundtrip _ hballs
  all_goals
    have hlen13 : (iv ++ gcmEncrypt (deriveKeyFromUserId userId) iv
        (utf8Encode text)).length ≥ 13 := by
      rw [List.length_append, hiv, hlen]
      omega
  all_goals
    have hie : isEncrypted ⟨b64Encode (iv ++
        gcmEncrypt (deriveKeyFromUserId userId) iv (utf8Encode text))⟩ = true := by
      unfold isEncrypted
      rw [hdec]
      simpa using hlen13
  · exact hie
  · unfold decryptText
    rw [if_neg huid, if_pos hie, hdec]
    show (match gcmDecrypt (deriveKeyFromUserId userId)
        ((iv ++ gcmEncrypt (deriveKeyFromUserId userId) iv (utf8Encode text)).take 12)
        ((iv ++ gcmEncrypt (deriveKeyFromUserId userId) iv (utf8Encode text)).drop 12) with
      | none => Except.error "Failed to decrypt text"
      | some decrypted =>
        match utf8Decode decrypted with
        | some cs => Except.ok (String.mk cs)
        | none => Except.error "Failed to decrypt text") = Except.ok text
    rw [show (iv ++ gcmEncrypt (deriveKeyFromUserId userId) iv (utf8Encode text)).take 12 =
        iv by rw [← hiv, List.take_left]]
    rw [show (iv ++ gcmEncrypt (deriveKeyFromUserId userId) iv (utf8Encode text)).drop 12 =
        gcmEncrypt (deriveKeyFromUserId userId) iv (utf8Encode text) by
      rw [← hiv, List.drop_left]]
    rw [hinv]
    show (match utf8Decode (utf8Encode text) with
      | some cs => Except.ok (String.mk cs)
      | none => Except.error "Failed to decrypt text") = Except.ok text
    rw [show utf8Decode (utf8Encode text) = some text.toList from utf8Encode_decode _]
    show Except.ok (String.mk text.toList) = Except.ok text
    cases text
    rfl

/-- Witness for C10 at a concrete cipher satisfying the AES-GCM
contract, a concrete text and user id, and a fixed IV. -/
theorem encryptText_decryptText_roundtrip_witness :
    ∃ ct : String,
      encryptText (fun _ _ p => p ++ List.replicate 16 0) "hi" "user1"
        (List.replicate 12 0) = .ok ct ∧
      isEncrypted ct = true ∧
      decryptText (fun _ _ c => some (c.take (c.length - 16))) ct "user1" = .ok "hi" :=
  encryptText_decryptText_roundtrip
    (fun _ _ p => p ++ List.replicate 16 0)
    (fun _ _ c => some (c.take (c.length - 16)))
    (fun k iv p => by simp)
    (fun k iv p => by simp)
    (fun k iv p hp b hb => by
      rcases List.mem_append.mp hb with hl | hr
      · exact hp b hl
      · rw [List.eq_of_mem_replicate hr]
        omega)
    "hi" "user1" (by decide)
    (List.replicate 12 0) (by simp)
    (fun b hb => by rw [List.eq_of_mem_replicate hb]; omega)

end Honorably
